import Mathlib

/-!
Verification development for the gunkls language-server core: a shallow
embedding of the incremental package loader, the diagnostics pipeline, the
structural formatter and the definition resolver, with theorems checking the
behaviours stated in the specification.
-/

namespace Gunkls

deriving instance DecidableEq for Except

/-- Error kinds of the loader (UnknownError, ListError, ParseError, TypeError
and the DSL-specific ValidateError). -/

inductive ErrKind where
  | UnknownError
  | ListError
  | ParseError
  | TypeError
  | ValidateError
deriving DecidableEq, Repr

/-- A 1-based source position, as produced by go/token.FileSet.Position. -/

structure Pos where
  line : Nat
  col : Nat
deriving DecidableEq, Repr

/-- loader.Error: file, zero-based start and end coordinates, message, kind. -/

structure Error where
  file : String
  fromLine : Nat
  fromCol : Nat
  toLine : Nat
  toCol : Nat
  msg : String
  kind : ErrKind
deriving DecidableEq, Repr

/-- A parsed struct tag literal.  `entries` are the key/value pairs of the
backquoted tag string in order (reflect.StructTag.Lookup returns the first
entry for a key).  `pos`/`endPos` span the tag literal.  `vetOk`/`vetMsg`
abstract the result of validateStructTag, whose body is outside this
snapshot; `parseOk` abstracts whether the formatter's parseTag accepts the
raw string.  Both hold for every well-formed tag. -/

structure Tag where
  entries : List (String × String)
  pos : Pos
  endPos : Pos
  vetOk : Bool := true
  vetMsg : String := ""
  parseOk : Bool := true
deriving DecidableEq, Repr

/-- One field of a struct declaration: its (single) name, how many names the
declaration carries, its span, and its optional tag literal. -/

structure Field where
  name : String
  namesCount : Nat := 1
  pos : Pos
  endPos : Pos
  tag : Option Tag
deriving DecidableEq, Repr

/-- reflect.StructTag.Lookup: the value of the first entry with key `k`. -/

def lookupTag (k : String) (es : List (String × String)) : Option String :=
  (es.find? (fun e => e.fst == k)).map (fun e => e.snd)

/-- Value of a list of decimal digits; `none` when empty or non-digit. -/

def digitsVal? (cs : List Char) : Option Nat :=
  if cs = [] then none
  else cs.foldl
    (fun acc c => acc.bind (fun n =>
      if c.isDigit then some (n * 10 + (c.toNat - 48)) else none))
    (some 0)

/-- strconv.Atoi: an optional sign followed by decimal digits. -/

def atoi? (s : String) : Option Int :=
  match s.data with
  | [] => none
  | c :: rest =>
    if c = '+' then (digitsVal? rest).map Int.ofNat
    else if c = '-' then (digitsVal? rest).map (fun n => -(n : Int))
    else (digitsVal? (c :: rest)).map Int.ofNat

/-! ### formatStruct (lsp/format.go)

The struct-sequence formatter: scan the existing pb tags, compute the unused
numbers in 1..len(fields), and hand them out to the untagged fields in
declaration order. -/

/-- Abort conditions of formatStruct's scanning pass. -/

inductive FmtErr where
  | emptyPb (pos : Pos)
  | nonNumber (pos : Pos) (val : String)
deriving DecidableEq, Repr

/-- First pass of formatStruct: the numeric values of existing pb tags, in
field order (usedSequences); an empty or non-numeric pb value aborts. -/

def collectSeq : List Field → Except FmtErr (List Int)
  | [] => .ok []
  | f :: fs =>
    match f.tag with
    | none => collectSeq fs
    | some t =>
      match lookupTag "pb" t.entries with
      | none => collectSeq fs
      | some v =>
        if v = "" then .error (.emptyPb t.pos)
        else
          match atoi? v with
          | none => .error (.nonNumber t.pos v)
          | some i => (collectSeq fs).map (fun us => i :: us)

/-- Whether a field lands in fieldsWithoutSequence: no tag at all, or a tag
without a pb key. -/

def lacksPb (f : Field) : Bool :=
  match f.tag with
  | none => true
  | some t => (lookupTag "pb" t.entries).isNone

/-- The numbers 1..n as integers, ascending (the loop index of the
missing-sequence scan). -/

def rangeInts (n : Nat) : List Int :=
  (List.range n).map (fun j : Nat => ((j : Int) + 1))

/-- missingSequences: the numbers 1..n not present in `used`, ascending. -/

def missingSequences (used : List Int) (n : Nat) : List Int :=
  (rangeInts n).filter (fun i => !used.contains i)

/-- Give a field the sequence number `m`: a fresh tag when it has none,
otherwise the pb entry is prepended to the existing tag string. -/

def setPb (f : Field) (m : Int) : Field :=
  match f.tag with
  | none =>
    { f with tag := some { entries := [("pb", toString m)], pos := f.endPos, endPos := f.endPos } }
  | some t =>
    { f with tag := some { t with entries := ("pb", toString m) :: t.entries } }

/-- Final pass: each field lacking a pb entry consumes the next missing
number.  The source indexes missingSequences[i], which panics when out of
range; `none` models that panic. -/

def assignSeq : List Field → List Int → Option (List Field)
  | [], _ => some []
  | f :: fs, ms =>
    if lacksPb f then
      match ms with
      | [] => none
      | m :: ms' => (assignSeq fs ms').map (fun gs => setPb f m :: gs)
    else (assignSeq fs ms).map (fun gs => f :: gs)

/-- Outcome of formatStruct on one struct. -/

inductive FmtResult where
  | ok (fields : List Field)
  | err (e : FmtErr)
  | panicked
deriving DecidableEq, Repr

/-- formatStruct (lsp/format.go:163): scan, compute missing numbers, assign. -/

def formatStruct (fields : List Field) : FmtResult :=
  match collectSeq fields with
  | .error e => .err e
  | .ok used =>
    match assignSeq fields (missingSequences used fields.length) with
    | none => .panicked
    | some out => .ok out

/-- The pb value a field carries after formatting. -/

def pbOf (f : Field) : Option String :=
  f.tag.bind (fun t => lookupTag "pb" t.entries)

/-- The pb values handed to the formerly untagged fields, in declaration
order. -/

def newPbs (fields out : List Field) : List (Option String) :=
  ((fields.zip out).filter (fun p => lacksPb p.fst)).map (fun p => pbOf p.snd)

/-- The list A holds the smallest positive integers outside `used`, ascending:
strictly sorted, positive, disjoint from `used`, and any unused positive
integer not in `A` exceeds every member of `A`. -/

def IsSmallestUnusedAssignment (used A : List Int) : Prop :=
  A.Pairwise (· < ·) ∧
  (∀ a ∈ A, 0 < a ∧ a ∉ used) ∧
  (∀ k : Int, 0 < k → k ∉ used → k ∉ A → ∀ a ∈ A, a < k)

/-- The spec's example struct: fields a (no tag), b (pb=3), c (no tag),
d (no tag). -/

def exFields : List Field :=
  [ { name := "a", pos := ⟨1, 1⟩, endPos := ⟨1, 5⟩, tag := none },
    { name := "b", pos := ⟨2, 1⟩, endPos := ⟨2, 5⟩,
      tag := some { entries := [("pb", "3")], pos := ⟨2, 6⟩, endPos := ⟨2, 12⟩ } },
    { name := "c", pos := ⟨3, 1⟩, endPos := ⟨3, 5⟩, tag := none },
    { name := "d", pos := ⟨4, 1⟩, endPos := ⟨4, 5⟩, tag := none } ]

/-- The formatter's output on the example: a=1, b keeps 3, c=2, d=4. -/

def exOut : List Field :=
  [ { name := "a", pos := ⟨1, 1⟩, endPos := ⟨1, 5⟩,
      tag := some { entries := [("pb", "1")], pos := ⟨1, 5⟩, endPos := ⟨1, 5⟩ } },
    { name := "b", pos := ⟨2, 1⟩, endPos := ⟨2, 5⟩,
      tag := some { entries := [("pb", "3")], pos := ⟨2, 6⟩, endPos := ⟨2, 12⟩ } },
    { name := "c", pos := ⟨3, 1⟩, endPos := ⟨3, 5⟩,
      tag := some { entries := [("pb", "2")], pos := ⟨3, 5⟩, endPos := ⟨3, 5⟩ } },
    { name := "d", pos := ⟨4, 1⟩, endPos := ⟨4, 5⟩,
      tag := some { entries := [("pb", "4")], pos := ⟨4, 5⟩, endPos := ⟨4, 5⟩ } } ]

/-! ### Package data model and validation (lsp/loader) -/

/-- A struct declaration as the validator and formatter see it. -/

structure StructData where
  fields : List Field
deriving DecidableEq, Repr

/-- A parsed gunk file: package clause name with its position, the struct
declarations in traversal order, the file's import paths, and whether every
embedded gunk tag comment splits cleanly (SplitGunkTag succeeding). -/

structure FileAst where
  pkgName : String
  pkgNamePos : Pos
  structs : List StructData
  imports : List String
  commentsOk : Bool := true
deriving DecidableEq, Repr

/-- One package's compiled type surface (go/types.Package identity). -/

structure TypeSurface where
  path : String
  name : String
deriving DecidableEq, Repr

/-- A host (go/packages) error attached to a loaded package. -/

structure HostError where
  pos : String
  msg : String
deriving DecidableEq, Repr

/-- Package lifecycle states (lsp/lint.go). -/

inductive PkgState where
  | Untracked
  | Dirty
  | Building
  | Open
deriving DecidableEq, Repr

/-- The loader's per-package record, flattening the embedded
gunk/loader.GunkPackage and go/packages.Package fields the claims touch
(GunkSyntax is called gunkAsts here). -/

structure GunkPackage where
  pkgId : String
  pkgPath : String
  name : String
  dir : String
  goFiles : List String
  hostErrors : List HostError
  gunkFiles : List String
  gunkNames : List String
  gunkAsts : List FileAst
  protoName : String
  errors : List Error
  types : Option TypeSurface
  imports : List String
  state : PkgState
deriving DecidableEq, Repr

/-- GunkPackage.error: record an error spanning two 1-based source positions,
stored zero-based. -/

def mkSpanError (file : String) (p q : Pos) (msg : String) (kind : ErrKind) : Error :=
  { file := file, fromLine := p.line - 1, fromCol := p.col - 1,
    toLine := q.line - 1, toCol := q.col - 1, msg := msg, kind := kind }

/-- Go fmt %q on the plain strings appearing in tags. -/

def goQuote (s : String) : String := "\"" ++ s ++ "\""

/-- The sequence-number part of the validator's per-field check: non-numeric
values and duplicates are reported (kind ParseError), fresh numbers are
recorded. -/

def seqStep (path : String) (t : Tag) (v : String) (used : List Int) :
    Option Error × List Int :=
  match atoi? v with
  | none =>
    (some (mkSpanError path t.pos t.endPos
      ("invalid sequence number " ++ goQuote v) .ParseError), used)
  | some n =>
    if used.contains n then
      (some (mkSpanError path t.pos t.endPos
        ("sequence number " ++ goQuote v ++ " seen twice") .ParseError), used)
    else (none, n :: used)

/-- The validator's handling of one field's tag (part_001:310-346): tag
syntax check, then json duplicate check, then the sequence check. -/

def fieldStep (path : String) (f : Field) (used : List Int) (jsons : List String) :
    List Error × List Int × List String :=
  match f.tag with
  | none => ([], used, jsons)
  | some t =>
    if t.vetOk = false then
      ([mkSpanError path t.pos t.endPos t.vetMsg .ParseError], used, jsons)
    else
      match lookupTag "pb" t.entries with
      | none => ([], used, jsons)
      | some v =>
        if v = "" then ([], used, jsons)
        else
          match lookupTag "json" t.entries with
          | some jv =>
            if jv = "" then
              let r := seqStep path t v used
              (r.fst.toList, r.snd, jsons)
            else if jsons.contains jv then
              ([mkSpanError path t.pos t.endPos
                ("json tag " ++ goQuote jv ++ " seen twice") .ParseError], used, jsons)
            else
              let r := seqStep path t v used
              (r.fst.toList, r.snd, jv :: jsons)
          | none =>
            let r := seqStep path t v used
            (r.fst.toList, r.snd, jsons)

/-- The field loop of the per-struct check, threading the used sequence
numbers and seen json names. -/

def seqLoop (path : String) : List Field → List Int → List String → List Error
  | [], _, _ => []
  | f :: fs, used, jsons =>
    let r := fieldStep path f used jsons
    r.fst ++ seqLoop path fs r.snd.fst r.snd.snd

/-- validatePackage's per-struct check: the first anonymous field aborts the
struct, otherwise the tags are checked for duplicates. -/

def validateStruct (path : String) (st : StructData) : List Error :=
  match st.fields.find? (fun f => f.namesCount == 0) with
  | some f =>
    [mkSpanError path f.pos f.endPos "anonymous struct fields are not supported" .ParseError]
  | none => seqLoop path st.fields [] []

/-- validatePackage (part_001:289): run the struct checks over every parsed
file (paired with its path by index), appending to the package's errors. -/

def validatePackage (pkg : GunkPackage) : GunkPackage :=
  { pkg with errors := pkg.errors ++
      ((pkg.gunkAsts.zip pkg.gunkFiles).flatMap
        (fun p => p.fst.structs.flatMap (validateStruct p.snd))) }

/-- A package whose single struct tags two fields pb="2". -/

def dupSeqFile : FileAst :=
  { pkgName := "dup", pkgNamePos := ⟨1, 9⟩,
    structs := [ { fields := [
      { name := "A", pos := ⟨2, 2⟩, endPos := ⟨2, 18⟩,
        tag := some { entries := [("pb", "2")], pos := ⟨2, 10⟩, endPos := ⟨2, 18⟩ } },
      { name := "B", pos := ⟨3, 2⟩, endPos := ⟨3, 18⟩,
        tag := some { entries := [("pb", "2")], pos := ⟨3, 10⟩, endPos := ⟨3, 18⟩ } } ] } ],
    imports := [] }

/-- The package holding dupSeqFile. -/

def dupSeqPkg : GunkPackage :=
  { pkgId := "dup", pkgPath := "dup", name := "dup", dir := "/w/dup",
    goFiles := [], hostErrors := [], gunkFiles := ["/w/dup/dup.gunk"],
    gunkNames := ["dup/dup.gunk"], gunkAsts := [dupSeqFile], protoName := "dup",
    errors := [], types := none, imports := [], state := .Dirty }

/-! ### The loader state and its operations (lsp/lint.go loader section) -/

/-- Split a character list on '/' (strings.Split for the path separator). -/

def splitSlash : List Char → List (List Char)
  | [] => [[]]
  | c :: rest =>
    let r := splitSlash rest
    if c = '/' then [] :: r
    else
      match r with
      | [] => [[c]]
      | g :: gs => (c :: g) :: gs

/-- filepath.Dir for clean slash-separated paths. -/

def dirOf (p : String) : String :=
  let parts := (splitSlash p.data).map (fun cs => String.mk cs)
  if parts.length ≤ 1 then "."
  else
    let d := String.intercalate "/" parts.dropLast
    if d = "" then "/" else d

/-- filepath.Base for clean slash-separated paths. -/

def baseOf (p : String) : String :=
  match ((splitSlash p.data).map (fun cs => String.mk cs)).getLast? with
  | some s => s
  | none => p

/-- strings.HasSuffix. -/

def strEndsWith (s suffix : String) : Bool :=
  s.data.reverse.take suffix.data.length == suffix.data.reverse

/-- Lookup in an association list (reading a Go map). -/

def lookupA {A : Type} (m : List (String × A)) (k : String) : Option A :=
  (m.find? (fun e => e.fst == k)).map (fun e => e.snd)

/-- Insert or replace a key (a Go map assignment). -/

def insertA {A : Type} : List (String × A) → String → A → List (String × A)
  | [], k, v => [(k, v)]
  | e :: rest, k, v =>
    if e.fst == k then (k, v) :: rest else e :: insertA rest k v

/-- Remove a key (Go delete). -/

def eraseA {A : Type} (m : List (String × A)) (k : String) : List (String × A) :=
  m.filter (fun e => e.fst != k)

/-- The Loader's mutable state: working directory, the Types flag, the
package cache keyed by import path (and by directory for parsed packages),
the fake-file overlay (none models Go's nil map before addFakeFiles runs)
and the in-memory file overrides. -/

structure Loader where
  dir : String
  types : Bool
  cache : List (String × GunkPackage)
  fakeFiles : Option (List (String × String))
  inMemoryFiles : List (String × String)
deriving DecidableEq, Repr

/-- A package as returned by host resolution (x/tools/go/packages) under
NeedName | NeedFiles. -/

structure HostPkg where
  pkgId : String
  name : String
  pkgPath : String
  goFiles : List String
  errors : List HostError
deriving DecidableEq, Repr

/-- What os.ReadDir returns. -/

inductive ReadDirRes where
  | notExist
  | failure (msg : String)
  | ok (names : List String)
deriving DecidableEq, Repr

/-- The external collaborators — filesystem, Go parser, host resolver, host
type checker — modelled as oracles the embedded code consults but never
inspects. -/

structure Env where
  readDir : String → ReadDirRes
  glob : String → List String
  parsePkgClause : String → Option String → Option String
  scanFakeFiles : Except String (List (String × String))
  packagesLoad : String → String → List (String × String) → Except String (List HostPkg)
  hostLoadTypes : String → Except String (List TypeSurface)
  parseFile : String → Option String → Except (List (Pos × String)) FileAst
  typeCheck : String → List FileAst → List Error × Bool

/-- NewGunkPackage (lint.go:577). -/

def NewGunkPackage (lpkg : HostPkg) (state : PkgState) : GunkPackage :=
  { pkgId := lpkg.pkgId, pkgPath := lpkg.pkgPath, name := lpkg.name,
    dir := "", goFiles := lpkg.goFiles, hostErrors := lpkg.errors,
    gunkFiles := [], gunkNames := [], gunkAsts := [], protoName := "",
    errors := [], types := none, imports := [], state := state }

/-- The dir-derivation loop of findGunkFiles: first Go file fixes the dir, a
second distinct dir yields a ListError (positionless, ToCol 999 as written
by addError) and stops. -/

def findDirLoop (pkgPath : String) : String → List String → String × Option Error
  | d, [] => (d, none)
  | d, gofile :: rest =>
    let fdir := dirOf gofile
    if d = "" then findDirLoop pkgPath fdir rest
    else if fdir = d then findDirLoop pkgPath d rest
    else (d, some { file := "", fromLine := 0, fromCol := 0, toLine := 0, toCol := 999,
                    msg := "multiple dirs for " ++ pkgPath ++ ": " ++ d ++ " " ++ fdir,
                    kind := .ListError })

/-- findGunkFiles (lint.go:451): derive the package dir from its Go files,
then glob the gunk files in it; on a dir conflict record the error and stop
before globbing. -/

def findGunkFiles (env : Env) (pkg : GunkPackage) : GunkPackage :=
  let r := findDirLoop pkg.pkgPath pkg.dir pkg.goFiles
  match r.snd with
  | some e => { pkg with dir := r.fst, errors := pkg.errors ++ [e] }
  | none => { pkg with dir := r.fst, gunkFiles := env.glob r.fst }

/-- AddFakeFiles via the walk oracle; Go fills l.fakeFiles lazily once. -/

def ensureFakeFiles (env : Env) (l : Loader) : Except String Loader :=
  match l.fakeFiles with
  | some _ => .ok l
  | none =>
    match env.scanFakeFiles with
    | .error e => .error e
    | .ok ff => .ok { l with fakeFiles := some ff }

/-- Loader.Load (lint.go:206): a cached node is returned as-is unless it
carries host errors; otherwise the host resolves the path under the
fake-file overlay, non-gunk packages are skipped, and the found packages are
cached by import path. -/

def Loader.Load (env : Env) (l : Loader) (path : String) :
    Except String (List GunkPackage) × Loader :=
  match lookupA l.cache path with
  | some pkg =>
    if pkg.hostErrors = [] then (.ok [pkg], l)
    else (.error ("error loading package " ++ goQuote path), l)
  | none =>
    match ensureFakeFiles env l with
    | .error e => (.error e, l)
    | .ok l1 =>
      match env.packagesLoad l1.dir path (l1.fakeFiles.getD []) with
      | .error e => (.error e, l1)
      | .ok lpkgs =>
        let pkgs := (lpkgs.map
            (fun lp => findGunkFiles env (NewGunkPackage lp .Untracked))).filter
          (fun p => !(p.gunkFiles.isEmpty && p.hostErrors.isEmpty))
        let l2 := pkgs.foldl
          (fun acc p => { acc with cache := insertA acc.cache p.pkgPath p }) l1
        (.ok pkgs, l2)

/-- The observable outcome of AddFile: normal return, error return, or a
runtime panic. -/

inductive AddFileRes where
  | ok (pkgs : List GunkPackage) (pkg : GunkPackage)
  | failure (msg : String)
  | panicked (msg : String)
deriving DecidableEq, Repr

/-- AddFile's find-covering-package loop: the first tracked package whose
dir matches is promoted Untracked→Dirty; the rest are untouched. -/

def promoteFirstAdd : List GunkPackage → String → List GunkPackage × Option GunkPackage
  | [], _ => ([], none)
  | p :: ps, d =>
    if p.dir = d then
      let pp := if p.state = .Untracked then { p with state := .Dirty } else p
      (pp :: ps, some pp)
    else
      let r := promoteFirstAdd ps d
      (p :: r.fst, r.snd)

/-- A Go map assignment on l.fakeFiles; assigning into the nil map panics. -/

def Loader.setFake (l : Loader) (k v : String) : Option Loader :=
  match l.fakeFiles with
  | none => none
  | some ff => some { l with fakeFiles := some (insertA ff k v) }

/-- Replace the (first) occurrence of a package value, mirroring an update
through the shared pointer held both by the caller's slice and the local. -/

def replaceFirst : List GunkPackage → GunkPackage → GunkPackage → List GunkPackage
  | [], _, _ => []
  | p :: ps, old, new => if p = old then new :: ps else p :: replaceFirst ps old new

/-- The shared invalidation tail of the file operations: evict the package
from the cache and mark every Open tracked package importing it Dirty. -/

def invalidate (l : Loader) (pkgs : List GunkPackage) (target : GunkPackage) :
    Loader × List GunkPackage :=
  ({ l with cache := eraseA l.cache target.pkgPath },
   pkgs.map (fun p =>
     if p.imports.contains target.pkgPath && p.state == .Open then
       { p with state := .Dirty }
     else p))

/-- The tail of AddFile once a covering package exists: append the file if
missing (visible through the shared pointer), evict the cache entry and
mark the importers Dirty. -/

def addFileCommon (l : Loader) (pkgs : List GunkPackage) (pkg : GunkPackage)
    (path : String) : AddFileRes × Loader :=
  let pkg2 := if pkg.gunkFiles.contains path then pkg
              else { pkg with gunkFiles := pkg.gunkFiles ++ [path] }
  let pkgs2 := replaceFirst pkgs pkg pkg2
  let r := invalidate l pkgs2 pkg2
  (.ok r.snd pkg2, r.fst)

/-- The new-package branch's host load.  The source binds the synthesized
package with `:=` inside the branch, shadowing the outer nil variable: the
fresh Dirty node is dropped on the floor, and control falls through to a
dereference of the nil outer pointer. -/

def addFileNewPkg (env : Env) (l : Loader) (dir path : String) :
    AddFileRes × Loader :=
  match env.packagesLoad dir path (l.fakeFiles.getD []) with
  | .error e => (.failure e, l)
  | .ok lpkgs =>
    if lpkgs.length ≠ 1 then
      (.failure ("unexpected number of packages: " ++ toString lpkgs.length), l)
    else
      (.panicked "runtime error: invalid memory address or nil pointer dereference", l)

/-- Loader.AddFile (lint.go:253): record the override, find or synthesize
the covering package, then invalidate.  The synthesized package is lost to
variable shadowing (see addFileNewPkg). -/

def Loader.AddFile (env : Env) (l : Loader) (pkgs : List GunkPackage)
    (path src : String) : AddFileRes × Loader :=
  let l0 := { l with inMemoryFiles := insertA l.inMemoryFiles path src }
  let d := dirOf path
  let r := promoteFirstAdd pkgs d
  match r.snd with
  | some pkg => addFileCommon l0 r.fst pkg path
  | none =>
    let pkgName0 := baseOf d
    let pkgName := (env.parsePkgClause path (some src)).getD pkgName0
    match env.readDir d with
    | .notExist =>
      match l0.setFake (d ++ "/gunkpkg.go") ("package " ++ pkgName) with
      | none => (.panicked "assignment to entry in nil map", l0)
      | some l1 => addFileNewPkg env l1 d path
    | .failure msg => (.failure msg, l0)
    | .ok names =>
      if names.any (fun nm => strEndsWith nm ".go") then
        addFileNewPkg env l0 d path
      else
        match l0.setFake (d ++ "/gunkpkg.go") ("package " ++ pkgName) with
        | none => (.panicked "assignment to entry in nil map", l0)
        | some l1 => addFileNewPkg env l1 d path

/-- The environment of the concrete C1 run: the directory exists with one
gunk file, the package clause parses, host resolution returns exactly one
package. -/

def envC1 : Env :=
  { readDir := fun _ => .ok ["a.gunk"],
    glob := fun _ => ["/w/a.gunk"],
    parsePkgClause := fun _ _ => some "a",
    scanFakeFiles := .ok [],
    packagesLoad := fun _ _ _ =>
      .ok [{ pkgId := "w/a", name := "a", pkgPath := "w/a", goFiles := [], errors := [] }],
    hostLoadTypes := fun _ => .error "unused",
    parseFile := fun _ _ => .error [],
    typeCheck := fun _ _ => ([], false) }

/-- The loader state of the concrete C1 run. -/

def loaderC1 : Loader :=
  { dir := "/w", types := true, cache := [], fakeFiles := some [], inMemoryFiles := [] }

/-- A concrete cached package for the C7 witness. -/

def cachedPkgC7 : GunkPackage :=
  { pkgId := "m/x", pkgPath := "m/x", name := "x", dir := "/m/x",
    goFiles := [], hostErrors := [], gunkFiles := ["/m/x/x.gunk"],
    gunkNames := [], gunkAsts := [], protoName := "x", errors := [],
    types := none, imports := [], state := .Open }

/-- A cached package carrying a host resolution error. -/

def badPkgC7 : GunkPackage :=
  { cachedPkgC7 with
    pkgPath := "m/bad",
    hostErrors := [{ pos := "-", msg := "go list failed" }] }

/-- A loader whose cache holds cachedPkgC7, plus a broken sibling. -/

def loaderC7 : Loader :=
  { dir := "/m", types := true,
    cache := [("m/x", cachedPkgC7), ("m/bad", badPkgC7)],
    fakeFiles := some [], inMemoryFiles := [] }

/-! ### ParsePackage, Errors and the Importer (lsp/loader parse, lsp/lint.go) -/

/-- Accumulator of ParsePackage's per-file loop. -/

structure ParseAcc where
  names : List String
  asts : List FileAst
  errs : List Error
  pkgName : String
  badName : Bool
deriving DecidableEq, Repr

/-- The per-file loop of ParsePackage (part_001:192): parse each gunk file
with any in-memory override, collect relative names, trees and parse errors
(scanner shape: point spans), derive the package name, flag mismatches. -/

def parseFiles (env : Env) (mem : List (String × String)) (pkgPath : String) :
    List String → String → ParseAcc
  | [], name => { names := [], asts := [], errs := [], pkgName := name, badName := false }
  | f :: fs, name =>
    match env.parseFile f (lookupA mem f) with
    | .error perrs =>
      let r := parseFiles env mem pkgPath fs name
      { r with
        errs := (perrs.map (fun pe =>
          { file := f, fromLine := pe.fst.line - 1, fromCol := pe.fst.col - 1,
            toLine := pe.fst.line - 1, toCol := pe.fst.col - 1, msg := pe.snd,
            kind := ErrKind.ParseError })) ++ r.errs }
    | .ok ast =>
      let newName := if name = "" then ast.pkgName else name
      let badHere : Bool := if name = "" then false else decide (name ≠ ast.pkgName)
      let r := parseFiles env mem pkgPath fs newName
      { names := (pkgPath ++ "/" ++ baseOf f) :: r.names,
        asts := ast :: r.asts,
        errs := r.errs,
        pkgName := r.pkgName,
        badName := badHere || r.badName }

/-- The bad-package-name errors: one ValidateError per file, spanning the
package clause name.  The source iterates over GunkFiles but indexes
GunkSyntax by the same index (part_001:214-221), so this pairing is exact
precisely when the two lists have equal length; ParsePackage reaches this
only in that case and otherwise surfaces the index-out-of-range panic. -/

def badNameErrors (files : List String) (asts : List FileAst) : List Error :=
  (files.zip asts).map (fun p =>
    mkSpanError p.fst p.snd.pkgNamePos
      { line := p.snd.pkgNamePos.line, col := p.snd.pkgNamePos.col + p.snd.pkgName.length }
      "found more than one package name" ErrKind.ValidateError)

/-- The import-recording loop at the end of ParsePackage: each imported path
is re-Loaded (failures ignored) and recorded when exactly one package comes
back. -/

def loadImports (env : Env) : Loader → List String → List String × Loader
  | l, [] => ([], l)
  | l, p :: ps =>
    match Loader.Load env l p with
    | (.ok pkgs, l1) =>
      let r := loadImports env l1 ps
      if pkgs.length = 1 then (p :: r.fst, r.snd) else r
    | (.error _, l1) => loadImports env l1 ps

/-- ParsePackage (part_001:185): clear the name, parse every file, flag
package-name mismatches; when error-free and checkTypes, build the type
surface, run the host checker (oracle: re-homed errors plus the hard-error
flag of check.Files) and record imports by re-Loading each imported path.
The final package value is cached under its directory, mirroring the
pointer the source stores up front.  The bad-package-name block iterates
over GunkFiles while indexing GunkSyntax (part_001:215): when a name
mismatch coexists with a parse-failed file the trees run short and the
source panics with index out of range — `none` models that panic. -/

def Loader.ParsePackage (env : Env) (l : Loader) (pkg : GunkPackage)
    (checkTypes : Bool) : Option (GunkPackage × Loader) :=
  let acc := parseFiles env l.inMemoryFiles pkg.pkgPath pkg.gunkFiles ""
  let pkg1 : GunkPackage :=
    { pkg with
      name := acc.pkgName, gunkNames := acc.names, gunkAsts := acc.asts,
      errors := pkg.errors ++ acc.errs }
  if acc.badName = true ∧ pkg1.gunkAsts.length < pkg1.gunkFiles.length then none
  else
  let pkg2 := if acc.badName then
      { pkg1 with errors := pkg1.errors ++ badNameErrors pkg1.gunkFiles pkg1.gunkAsts }
    else pkg1
  let pkg3 := if pkg2.protoName = "" then { pkg2 with protoName := pkg2.name } else pkg2
  if pkg3.errors ≠ [] ∨ checkTypes = false then
    some (pkg3, { l with cache := insertA l.cache pkg3.dir pkg3 })
  else
    let pkg4 := { pkg3 with types := some { path := pkg3.pkgPath, name := pkg3.name } }
    let tr := env.typeCheck pkg4.pkgPath pkg4.gunkAsts
    let pkg5 := { pkg4 with errors := pkg4.errors ++ tr.fst }
    if tr.snd then
      some (pkg5, { l with cache := insertA l.cache pkg5.dir pkg5 })
    else
      let r := loadImports env l (pkg5.gunkAsts.flatMap (fun a => a.imports))
      let pkg6 := { pkg5 with imports := r.fst }
      some (pkg6, { r.snd with cache := insertA r.snd.cache pkg6.dir pkg6 })

/-- resetPackage (lint.go:586): clear the derived fields — names, trees,
proto name, lsp errors, the type table — and rebuild the host package record
keeping only ID, Name, PkgPath and GoFiles (so host errors are cleared). -/

def resetPackage (pkg : GunkPackage) : GunkPackage :=
  { pkg with
    gunkNames := [], gunkAsts := [], protoName := "", errors := [],
    types := none, hostErrors := [] }

/-- The parse entry point lint.go's Errors and Import call
(parseGunkPackage); its body is outside this snapshot and is modelled by
ParsePackage driven by the loader's Types flag, per the loader's doc
comment.  `none` is the index-out-of-range panic of the bad-package-name
block, which propagates to the caller. -/

def Loader.parseGunkPackage (env : Env) (l : Loader) (pkg : GunkPackage) :
    Option (GunkPackage × Loader) :=
  Loader.ParsePackage env l pkg l.types

/-- A protocol diagnostic as Errors emits it. -/

structure Diagnostic where
  startLine : Nat
  startChar : Nat
  endLine : Nat
  endChar : Nat
  severity : Nat
  code : String
  source : String
  message : String
deriving DecidableEq, Repr

/-- The error-kind to code mapping of Errors (lint.go:488); ListError falls
through to the initial "error". -/

def kindCode : ErrKind → String
  | .UnknownError => "error"
  | .ListError => "error"
  | .ParseError => "parse error"
  | .TypeError => "type error"
  | .ValidateError => "validate error"

/-- Translate one accumulated error into a diagnostic (positions already
zero-based). -/

def toDiagnostic (e : Error) : Diagnostic :=
  { startLine := e.fromLine, startChar := e.fromCol, endLine := e.toLine,
    endChar := e.toCol, severity := 1, code := kindCode e.kind,
    source := "coc-gunk", message := e.msg }

/-- Append a diagnostic under a file key (Go map append). -/

def insertAppend : List (String × List Diagnostic) → String → Diagnostic →
    List (String × List Diagnostic)
  | [], f, d => [(f, [d])]
  | (g, ds) :: rest, f, d =>
    if g == f then (g, ds ++ [d]) :: rest else (g, ds) :: insertAppend rest f d

/-- The outcome of Errors: a normal return (the diagnostics map — none for
a non-Dirty package — with the recomputed package and loader), or the
re-parse panic propagating out of parseGunkPackage. -/

inductive ErrorsRes where
  | done (diags : Option (List (String × List Diagnostic))) (pkg : GunkPackage) (l : Loader)
  | panicked
deriving DecidableEq, Repr

/-- Loader.Errors (lint.go:470): nothing for a non-Dirty package; otherwise
reset the node, re-parse (which can panic on a package-name mismatch plus a
parse-failed file), validate, then key a diagnostic list for every file —
nil for files contributing no error — and append each error's diagnostic
under its file. -/

def Loader.Errors (env : Env) (l : Loader) (pkg : GunkPackage) : ErrorsRes :=
  if pkg.state ≠ .Dirty then .done none pkg l
  else
    match Loader.parseGunkPackage env l (resetPackage pkg) with
    | none => .panicked
    | some r =>
      let pkg2 := validatePackage r.fst
      let init := pkg2.gunkFiles.map (fun f => (f, ([] : List Diagnostic)))
      let dm := pkg2.errors.foldl (fun m e => insertAppend m e.file (toDiagnostic e)) init
      .done (some dm) pkg2 r.snd

/-- The outcome of the Importer: a type surface (possibly nil), an error, or
a panic from an exactly-one assertion. -/

inductive ImportRes where
  | ok (types : Option TypeSurface)
  | failure (msg : String)
  | panicked (msg : String)
deriving DecidableEq, Repr

/-- strings.Contains(path, "."). -/

def containsDot (s : String) : Bool := s.data.contains '.'

/-- Loader.Import (lint.go:529): paths without a dot go to plain host type
loading (exactly one result expected); the rest go through Load, fail on
recorded host errors (first message surfaced), and force a reset plus
parse/check cycle when the package is Dirty or carries no type table; the
re-parse panic of the forced cycle propagates out of Import. -/

def Loader.Import (env : Env) (l : Loader) (path : String) : ImportRes × Loader :=
  if containsDot path = false then
    match env.hostLoadTypes path with
    | .error e => (.failure e, l)
    | .ok [t] => (.ok (some t), l)
    | .ok _ => (.panicked "expected go/packages.Load to return exactly one package", l)
  else
    match Loader.Load env l path with
    | (.error e, l1) => (.failure e, l1)
    | (.ok [pkg], l1) =>
      if pkg.hostErrors ≠ [] then
        (.failure ((pkg.hostErrors.head?.map (fun e => e.msg)).getD ""), l1)
      else if pkg.state = .Dirty ∨ pkg.types = none then
        match Loader.parseGunkPackage env l1 (resetPackage pkg) with
        | none => (.panicked "runtime error: index out of range", l1)
        | some r => (.ok r.fst.types, r.snd)
      else (.ok pkg.types, l1)
    | (.ok _, l1) => (.panicked "expected Loader.Load to return exactly one package", l1)

/-- The cached IDL package of the C2 run: Open, clean, with a type table. -/

def pkgC2 : GunkPackage :=
  { pkgId := "example.com/foo", pkgPath := "example.com/foo", name := "foo",
    dir := "/m/foo", goFiles := [], hostErrors := [],
    gunkFiles := ["/m/foo/foo.gunk"], gunkNames := [], gunkAsts := [],
    protoName := "foo", errors := [],
    types := some { path := "example.com/foo", name := "foo" },
    imports := [], state := .Open }

/-- The loader of the C2 run. -/

def loaderC2 : Loader :=
  { dir := "/m", types := true, cache := [("example.com/foo", pkgC2)],
    fakeFiles := some [], inMemoryFiles := [] }

/-- The environment of the C2 run: host type loading answers a
distinguishable HOST surface for every path. -/

def envC2 : Env :=
  { readDir := fun _ => .ok [],
    glob := fun _ => [],
    parsePkgClause := fun _ _ => none,
    scanFakeFiles := .ok [],
    packagesLoad := fun _ _ _ => .error "unused",
    hostLoadTypes := fun _ => .ok [{ path := "HOST", name := "host" }],
    parseFile := fun _ _ => .error [],
    typeCheck := fun _ _ => ([], false) }

/-- The loader and package for the concrete C4/C10 runs: a Dirty two-file
package with a stale error, types disabled. -/

def pkgC4 : GunkPackage :=
  { pkgId := "m/x", pkgPath := "m/x", name := "x", dir := "/m/x",
    goFiles := [], hostErrors := [],
    gunkFiles := ["/m/x/a.gunk", "/m/x/b.gunk"], gunkNames := [],
    gunkAsts := [], protoName := "x",
    errors := [{ file := "/m/x/a.gunk", fromLine := 0, fromCol := 0, toLine := 0,
                 toCol := 5, msg := "stale", kind := ErrKind.TypeError }],
    types := none, imports := [], state := .Dirty }

/-- The loader of the concrete C4/C10 runs. -/

def loaderC4 : Loader :=
  { dir := "/m", types := false, cache := [], fakeFiles := some [],
    inMemoryFiles := [] }

/-! ### The definition resolver (lsp/typedef.go) -/

/-- An editor location (file URI plus a zero-based point). -/

structure Location where
  uriFile : String
  line : Nat := 0
  col : Nat := 0
deriving DecidableEq, Repr

/-- A reply to a definition request: locations, an error, or the silent
no-target nil reply. -/

inductive GotoReply where
  | locs (ls : List Location)
  | failureMsg (msg : String)
  | silent
deriving DecidableEq, Repr

/-- The invalid-target error (typedef.go:18). -/

def invalidTypeMsg : String := "can only go to definition on struct or enum types"

/-- gotoImport (typedef.go:110): load the import path; a load error or more
than one package fails, zero packages fails with the no-gunk-files error,
and otherwise the reply carries one location per gunk file of the target. -/

def LSP.gotoImport (env : Env) (l : Loader) (path : String) : GotoReply × Loader :=
  match Loader.Load env l path with
  | (.error e, l1) =>
    (.failureMsg ("unexpected error loading " ++ goQuote path ++ ": " ++ e), l1)
  | (.ok pkgs, l1) =>
    if pkgs.length > 1 then
      (.failureMsg ("unexpected error loading " ++ goQuote path ++ ": <nil>"), l1)
    else
      match pkgs with
      | [] => (.failureMsg ("no gunk files in package " ++ goQuote path), l1)
      | pkg :: _ => (.locs (pkg.gunkFiles.map (fun v => { uriFile := v })), l1)

/-- What the type checker knows about one expression. -/

inductive TypeRep where
  | basic (name : String)
  | named (declFile : String) (declPos : Option Pos)
  | other (desc : String)
deriving DecidableEq, Repr

/-- A go/types TypeAndValue entry. -/

structure TypeAndValue where
  isType : Bool
  typ : TypeRep
deriving DecidableEq, Repr

/-- Lookup in the package's TypesInfo table, keyed by expression identity;
a missing entry is the zero TypeAndValue, whose IsType() is false. -/

def lookupTI (ti : List (Nat × TypeAndValue)) (expr : Nat) : Option TypeAndValue :=
  (ti.find? (fun e => e.fst == expr)).map (fun e => e.snd)

/-- gotoType (typedef.go:134): a missing or non-type entry replies silently;
a basic type replies the invalid-target error; a named type with a valid
declaring position replies that location (zero-based), with an invalid one
the invalid-target error; any other type shape is the unknown-type error. -/

def LSP.gotoType (ti : List (Nat × TypeAndValue)) (expr : Nat) : GotoReply :=
  match lookupTI ti expr with
  | none => .silent
  | some tv =>
    if tv.isType = false then .silent
    else
      match tv.typ with
      | .basic _ => .failureMsg invalidTypeMsg
      | .named f pos? =>
        match pos? with
        | none => .failureMsg invalidTypeMsg
        | some p => .locs [{ uriFile := f, line := p.line - 1, col := p.col - 1 }]
      | .other d => .failureMsg ("unknown type of type: " ++ d)

/-- The cached target package of the C8 run. -/

def pkgC8 : GunkPackage :=
  { pkgId := "example.com/api", pkgPath := "example.com/api", name := "api",
    dir := "/m/api", goFiles := [], hostErrors := [],
    gunkFiles := ["/m/api/a.gunk", "/m/api/b.gunk"], gunkNames := [],
    gunkAsts := [], protoName := "api", errors := [], types := none,
    imports := [], state := .Open }

/-- The loader of the C8 run. -/

def loaderC8 : Loader :=
  { dir := "/m", types := true, cache := [("example.com/api", pkgC8)],
    fakeFiles := some [], inMemoryFiles := [] }

/-! ### The Format request (the config revision of Format and formatStruct) -/

/-- The formatting configuration (the Format section of gunk/config). -/

structure FmtConfig where
  pb : Bool
  json : Bool
  initialismsOk : Bool := true
deriving DecidableEq, Repr

/-- The formatter's external collaborators: config loading (whose error the
source ignores) and snaker's camel-to-snake conversion.  initialismsOk
abstracts whether snaker.Add accepts the configured initialisms. -/

structure FmtEnv where
  configLoad : String → FmtConfig
  camelToSnake : String → String

/-- Last-occurrence lookup: parseTag stores values in a map, so a repeated
key keeps its last value. -/

def lookupLast (k : String) (es : List (String × String)) : Option String :=
  (es.reverse.find? (fun e => e.fst == k)).map (fun e => e.snd)

/-- Phase 1 of the config formatStruct (part_000:183): collect the numeric
pb values; any non-numeric (or empty) value aborts with the non-number
error. -/

def collectUsedCfg : List Field → Except String (List Int)
  | [] => .ok []
  | f :: fs =>
    match f.tag with
    | none => collectUsedCfg fs
    | some t =>
      match lookupTag "pb" t.entries with
      | none => collectUsedCfg fs
      | some v =>
        match atoi? v with
        | none =>
          .error ("struct field tag for pb contains a non-number " ++ goQuote v)
        | some n => (collectUsedCfg fs).map (fun us => n :: us)

/-- Phase 2 of the config formatStruct (part_000:213): rewrite each eligible
field's tag — pb first (forced i+1, kept value, or the next missing number),
then json (forced snake name or kept), then the remaining keys; fields whose
tag fails parseTag or which do not have exactly one name are skipped.  The
source indexes missingNum[0], which panics when exhausted; none models it. -/

def rewriteFields (cfg : FmtConfig) (camel : String → String) :
    List Field → Nat → List Int → Option (List Field)
  | [], _, _ => some []
  | f :: fs, i, ms =>
    let tagParseFailed : Bool :=
      match f.tag with
      | some t => !t.parseOk
      | none => false
    if tagParseFailed || f.namesCount != 1 then
      (rewriteFields cfg camel fs (i + 1) ms).map (fun gs => f :: gs)
    else
      let entries0 := match f.tag with
        | some t => t.entries
        | none => []
      let pbStep : Option ((String × String) × List Int) :=
        if cfg.pb then some (("pb", toString (i + 1)), ms)
        else
          match lookupLast "pb" entries0 with
          | some pv => some (("pb", pv), ms)
          | none =>
            match ms with
            | m :: ms2 => some (("pb", toString m), ms2)
            | [] => none
      match pbStep with
      | none => none
      | some (pbe, ms2) =>
        let jsonEntries : List (String × String) :=
          if cfg.json then [("json", camel f.name)]
          else
            match lookupLast "json" entries0 with
            | some jv => [("json", jv)]
            | none => []
        let keeps : List (String × String) :=
          (entries0.map (fun e => e.fst)).filterMap (fun k =>
            if k == "pb" || k == "json" then none
            else some (k, (lookupLast k entries0).getD ""))
        let newEntries := pbe :: (jsonEntries ++ keeps)
        let f2 : Field :=
          { f with tag := some { entries := newEntries, pos := f.endPos, endPos := f.endPos } }
        (rewriteFields cfg camel fs (i + 1) ms2).map (fun gs => f2 :: gs)

/-- The outcome of one (or a list of) config formatStruct runs. -/

inductive StructsRes where
  | ok (sts : List StructData)
  | err (msg : String)
  | panicked
deriving DecidableEq, Repr

/-- Formatter.formatStruct (part_000:175): missing numbers are computed only
when pb renumbering is off, then the fields are rewritten. -/

def formatStructCfg (cfg : FmtConfig) (camel : String → String)
    (st : StructData) : StructsRes :=
  let usedR : Except String (List Int) :=
    if cfg.pb then .ok [] else collectUsedCfg st.fields
  match usedR with
  | .error e => .err e
  | .ok used =>
    let ms := if cfg.pb then [] else missingSequences used st.fields.length
    match rewriteFields cfg camel st.fields 0 ms with
    | none => .panicked
    | some fs => .ok [{ fields := fs }]

/-- Fold formatStructCfg over the file's structs; the first failure aborts. -/

def formatStructsCfg (cfg : FmtConfig) (camel : String → String) :
    List StructData → StructsRes
  | [] => .ok []
  | st :: sts =>
    match formatStructCfg cfg camel st with
    | .err e => .err e
    | .panicked => .panicked
    | .ok st2 =>
      match formatStructsCfg cfg camel sts with
      | .ok rest => .ok (st2 ++ rest)
      | .err e => .err e
      | .panicked => .panicked

/-- Formatter.formatFile (part_000:109): formatComment over every comment
group — abstracted by the tree's commentsOk flag — then formatStruct over
every struct; the first error aborts the file. -/

def formatFileCfg (cfg : FmtConfig) (camel : String → String) (ast : FileAst) :
    StructsRes :=
  if ast.commentsOk = false then .err "gunk tag split failed"
  else formatStructsCfg cfg camel ast.structs

/-- The distinct reply sites of the Format request. -/

inductive FormatReason where
  | loadFailed (msg : String)
  | pkgCount (n : Nat)
  | fileErrors
  | notFound
  | newFormatter
  | formatFailed
  | panicked
deriving DecidableEq, Repr

/-- The Format reply: the full-document edit (carried as the formatted
structs) or a failure — a failure never carries edits. -/

inductive FormatReply where
  | edits (sts : List StructData)
  | failure (reason : FormatReason)
deriving DecidableEq, Repr

/-- The file-to-tree loop of Format: the matching file's tree by index; an
index past the trees is the source's out-of-range panic. -/

def findFileAst : List String → List FileAst → String → Option (Option FileAst)
  | [], _, _ => some none
  | f :: fs, asts, file =>
    if f == file then
      match asts with
      | [] => none
      | a :: _ => some (some a)
    else
      match asts with
      | [] => findFileAst fs [] file
      | _ :: as2 => findFileAst fs as2 file

/-- LSP.Format (part_000:23): resolve the file's package via filePkg, load
config (error ignored), parse when no trees exist yet (the re-parse panic
propagates), fail on a non-validation error recorded against the file, fail
when the file is missing from the file list, build the formatter, then
format the tree; a formatter error fails the whole request with no edits. -/

def LSP.Format (env : Env) (fenv : FmtEnv) (l : Loader) (file : String) :
    FormatReply × Loader :=
  match Loader.Load env l (dirOf file) with
  | (.error e, l1) => (.failure (.loadFailed e), l1)
  | (.ok pkgs, l1) =>
    match pkgs with
    | [pkg0] =>
      let cfg := fenv.configLoad pkg0.dir
      match (if pkg0.gunkAsts.isEmpty then Loader.ParsePackage env l1 pkg0 false
             else some (pkg0, l1)) with
      | none => (.failure .panicked, l1)
      | some pr =>
        let pkg := pr.fst
        let l2 := pr.snd
        if pkg.errors.any (fun e => e.file == file && e.kind != ErrKind.ValidateError) then
          (.failure .fileErrors, l2)
        else
          match findFileAst pkg.gunkFiles pkg.gunkAsts file with
          | some none => (.failure .notFound, l2)
          | none => (.failure .panicked, l2)
          | some (some ast) =>
            if cfg.initialismsOk = false then (.failure .newFormatter, l2)
            else
              match formatFileCfg cfg fenv.camelToSnake ast with
              | .ok sts => (.edits sts, l2)
              | .err _ => (.failure .formatFailed, l2)
              | .panicked => (.failure .panicked, l2)
    | _ => (.failure (.pkgCount pkgs.length), l1)

/-- The C6 counterexample file: its struct has a non-numeric pb tag. -/

def fileAstC6 : FileAst :=
  { pkgName := "f", pkgNamePos := ⟨1, 9⟩,
    structs := [ { fields := [
      { name := "A", pos := ⟨2, 2⟩, endPos := ⟨2, 18⟩,
        tag := some { entries := [("pb", "x")], pos := ⟨2, 10⟩, endPos := ⟨2, 18⟩ } } ] } ],
    imports := [] }

/-- The C6 counterexample package: one clean parsed file (fileAstC6). -/

def pkgC6 : GunkPackage :=
  { pkgId := "m/f", pkgPath := "m/f", name := "f", dir := "/m/f",
    goFiles := [], hostErrors := [], gunkFiles := ["/m/f/f.gunk"],
    gunkNames := ["m/f/f.gunk"], gunkAsts := [fileAstC6],
    protoName := "f", errors := [], types := none, imports := [], state := .Open }

/-- The loader of the C6 counterexample run. -/

def loaderC6 : Loader :=
  { dir := "/m", types := false, cache := [("/m/f", pkgC6)],
    fakeFiles := some [], inMemoryFiles := [] }

/-- The formatter environment of the C6 runs. -/

def fenvC6 : FmtEnv :=
  { configLoad := fun _ => { pb := false, json := false, initialismsOk := true },
    camelToSnake := fun s => s }

/-- The C6 witness package: a recorded type error on the target file. -/

def pkgC6b : GunkPackage :=
  { pkgC6 with
    errors := [{ file := "/m/f/f.gunk", fromLine := 1, fromCol := 1, toLine := 1,
                 toCol := 17, msg := "undefined: Broken", kind := ErrKind.TypeError }] }

/-- The loader of the C6 witness run. -/

def loaderC6b : Loader :=
  { dir := "/m", types := false, cache := [("/m/f", pkgC6b)],
    fakeFiles := some [], inMemoryFiles := [] }

/-- The diagnostics map of the completing C4-adjacent runs below: one empty
list per file. -/
def dmC4 : Option (List (String × List Diagnostic)) :=
  some [("/m/x/a.gunk", []), ("/m/x/b.gunk", [])]

/-- The package those runs return: derived fields rebuilt from the parse
(both files fail to parse under envC1, with an empty error list). -/
def pkgC4done : GunkPackage :=
  { pkgId := "m/x", pkgPath := "m/x", name := "", dir := "/m/x",
    goFiles := [], hostErrors := [], gunkFiles := ["/m/x/a.gunk", "/m/x/b.gunk"],
    gunkNames := [], gunkAsts := [], protoName := "", errors := [],
    types := none, imports := [], state := .Dirty }

/-- The loader after those runs: the recomputed package cached by dir. -/
def loaderC4done : Loader :=
  { dir := "/m", types := false, cache := [("/m/x", pkgC4done)],
    fakeFiles := some [], inMemoryFiles := [] }

/-- The parse oracle of the C4 failing input: a.gunk parses as package x,
b.gunk as package y, c.gunk fails to parse. -/
def envC4p : Env :=
  { envC1 with
    parseFile := fun path _ =>
      if path = "/m/p/a.gunk" then
        .ok { pkgName := "x", pkgNamePos := ⟨1, 9⟩, structs := [], imports := [],
              commentsOk := true }
      else if path = "/m/p/b.gunk" then
        .ok { pkgName := "y", pkgNamePos := ⟨1, 9⟩, structs := [], imports := [],
              commentsOk := true }
      else .error [(⟨1, 1⟩, "expected declaration, found Invalid")] }

/-- The C4 failing input: a Dirty package mixing two package names with an
unparsable third file. -/
def pkgC4p : GunkPackage :=
  { pkgId := "m/p", pkgPath := "m/p", name := "p", dir := "/m/p",
    goFiles := [], hostErrors := [],
    gunkFiles := ["/m/p/a.gunk", "/m/p/b.gunk", "/m/p/c.gunk"],
    gunkNames := [], gunkAsts := [], protoName := "p", errors := [],
    types := none, imports := [], state := .Dirty }

/-- The loader of the C4 failing run. -/
def loaderC4p : Loader :=
  { dir := "/m", types := false, cache := [], fakeFiles := some [],
    inMemoryFiles := [] }

/-- The cached Dirty package of the C2 forcing run. -/
def pkgC2b : GunkPackage :=
  { pkgId := "example.com/bar", pkgPath := "example.com/bar", name := "bar",
    dir := "/m/bar", goFiles := [], hostErrors := [],
    gunkFiles := ["/m/bar/bar.gunk"], gunkNames := [], gunkAsts := [],
    protoName := "bar", errors := [], types := none, imports := [],
    state := .Dirty }

/-- The loader of the C2 forcing run. -/
def loaderC2b : Loader :=
  { dir := "/m", types := false, cache := [("example.com/bar", pkgC2b)],
    fakeFiles := some [], inMemoryFiles := [] }

/-- The package after the forced cycle: its one file fails to parse under
envC2 with an empty error list, and checkTypes is off, so the type surface
stays absent. -/
def pkgC2bAfter : GunkPackage :=
  { pkgId := "example.com/bar", pkgPath := "example.com/bar", name := "",
    dir := "/m/bar", goFiles := [], hostErrors := [],
    gunkFiles := ["/m/bar/bar.gunk"], gunkNames := [], gunkAsts := [],
    protoName := "", errors := [], types := none, imports := [],
    state := .Dirty }

/-- The loader after the forced cycle. -/
def loaderC2bAfter : Loader :=
  { dir := "/m", types := false,
    cache := [("example.com/bar", pkgC2b), ("/m/bar", pkgC2bAfter)],
    fakeFiles := some [], inMemoryFiles := [] }

/-- The parse oracle of the C2 panic run: two package names plus a parse
failure inside the forced cycle. -/
def envC2p : Env :=
  { envC2 with
    parseFile := fun path _ =>
      if path = "/m/pnc/a.gunk" then
        .ok { pkgName := "x", pkgNamePos := ⟨1, 9⟩, structs := [], imports := [],
              commentsOk := true }
      else if path = "/m/pnc/b.gunk" then
        .ok { pkgName := "y", pkgNamePos := ⟨1, 9⟩, structs := [], imports := [],
              commentsOk := true }
      else .error [(⟨1, 1⟩, "expected declaration, found Invalid")] }

/-- The cached Dirty package of the C2 panic run. -/
def pkgC2p : GunkPackage :=
  { pkgId := "example.com/pnc", pkgPath := "example.com/pnc", name := "pnc",
    dir := "/m/pnc", goFiles := [], hostErrors := [],
    gunkFiles := ["/m/pnc/a.gunk", "/m/pnc/b.gunk", "/m/pnc/c.gunk"],
    gunkNames := [], gunkAsts := [], protoName := "pnc", errors := [],
    types := none, imports := [], state := .Dirty }

/-- The loader of the C2 panic run. -/
def loaderC2p : Loader :=
  { dir := "/m", types := false, cache := [("example.com/pnc", pkgC2p)],
    fakeFiles := some [], inMemoryFiles := [] }

/-! ### Theorems -/

/-- On a successful scan, every field feeds exactly one of the two lists:
fieldsWithoutSequence or usedSequences. -/
theorem collectSeq_partition :
    ∀ (fields : List Field) (used : List Int),
      collectSeq fields = .ok used →
      (fields.filter lacksPb).length + used.length = fields.length := by
  intro fields
  induction fields with
  | nil =>
    intro used h
    simp only [collectSeq, Except.ok.injEq] at h
    simp [← h]
  | cons f fs ih =>
    intro used h
    simp only [collectSeq] at h
    cases htag : f.tag with
    | none =>
      rw [htag] at h
      have hl : lacksPb f = true := by simp [lacksPb, htag]
      simpa [List.filter_cons, hl, Nat.succ_add] using ih used h
    | some t =>
      cases hpb : lookupTag "pb" t.entries with
      | none =>
        simp only [htag, hpb] at h
        have hl : lacksPb f = true := by simp [lacksPb, htag, hpb]
        simpa [List.filter_cons, hl, Nat.succ_add] using ih used h
      | some v =>
        simp only [htag, hpb] at h
        have hl : lacksPb f = false := by simp [lacksPb, htag, hpb]
        by_cases hv : v = ""
        · simp [hv] at h
        · rw [if_neg hv] at h
          cases ha : atoi? v with
          | none => simp only [ha] at h; simp at h
          | some i =>
            simp only [ha] at h
            cases hc : collectSeq fs with
            | error e => simp only [hc, Except.map] at h; simp at h
            | ok us =>
              simp only [hc, Except.map, Except.ok.injEq] at h
              subst h
              have := ih us hc
              simp only [List.filter_cons, hl, List.length_cons, Bool.false_eq_true,
                if_false, cond_false]
              omega

/-- Splitting a list by a boolean predicate preserves the total length. -/
theorem length_filter_not_add (l : List Int) (p : Int → Bool) :
    (l.filter p).length + (l.filter (fun a => !(p a))).length = l.length := by
  induction l with
  | nil => rfl
  | cons a l ih =>
    cases h : p a <;> simp [List.filter_cons, h] <;> omega

/-- The numbers 1..n are distinct. -/
theorem rangeInts_nodup (n : Nat) : (rangeInts n).Nodup := by
  refine (List.nodup_range n).map ?_
  intro a b hab
  simp only [] at hab
  omega

/-- There are at least n - |used| missing numbers in 1..n. -/
theorem missingSequences_length_ge (used : List Int) (n : Nat) :
    n ≤ (missingSequences used n).length + used.length := by
  have hsplit :=
    length_filter_not_add (rangeInts n) (fun i => !used.contains i)
  have hsub : ((rangeInts n).filter (fun a => !(!used.contains a))) ⊆ used := by
    intro a ha
    have hp := List.of_mem_filter ha
    simpa using hp
  have hnd : ((rangeInts n).filter (fun a => !(!used.contains a))).Nodup :=
    (rangeInts_nodup n).filter _
  have hle := (hnd.subperm hsub).length_le
  have hlen : (rangeInts n).length = n := by simp [rangeInts]
  unfold missingSequences
  omega

/-- The assignment pass succeeds whenever enough missing numbers exist. -/
theorem assignSeq_isSome :
    ∀ (fields : List Field) (ms : List Int),
      (fields.filter lacksPb).length ≤ ms.length →
      (assignSeq fields ms).isSome := by
  intro fields
  induction fields with
  | nil => intro ms _; simp [assignSeq]
  | cons f fs ih =>
    intro ms h
    cases hf : lacksPb f with
    | true =>
      cases ms with
      | nil => simp [List.filter_cons, hf] at h
      | cons m ms' =>
        have hrec := ih ms' (by simp [List.filter_cons, hf] at h; omega)
        cases has : assignSeq fs ms' with
        | none => rw [has] at hrec; simp at hrec
        | some out => simp [assignSeq, hf, has]
    | false =>
      have hrec := ih ms (by simpa [List.filter_cons, hf] using h)
      cases has : assignSeq fs ms with
      | none => rw [has] at hrec; simp at hrec
      | some out => simp [assignSeq, hf, has]

/-- Claim C9: when the existing pb tags all parse, the fields lacking a
sequence number never outnumber the missing numbers in 1..n, so the indexed
access missingSequences[i] stays in bounds and formatStruct cannot panic. -/
theorem formatStruct_access_in_bounds (fields : List Field) (used : List Int)
    (hc : collectSeq fields = .ok used) :
    (fields.filter lacksPb).length ≤ (missingSequences used fields.length).length ∧
    formatStruct fields ≠ FmtResult.panicked := by
  have h1 := collectSeq_partition fields used hc
  have h2 := missingSequences_length_ge used fields.length
  have hle : (fields.filter lacksPb).length ≤
      (missingSequences used fields.length).length := by omega
  refine ⟨hle, ?_⟩
  have h3 := assignSeq_isSome fields (missingSequences used fields.length) hle
  cases has : assignSeq fields (missingSequences used fields.length) with
  | none => rw [has] at h3; simp at h3
  | some out => simp [formatStruct, hc, has]

/-- A field that just received number m carries pb = m. -/
theorem pbOf_setPb (f : Field) (m : Int) : pbOf (setPb f m) = some (toString m) := by
  cases htag : f.tag <;>
    simp [pbOf, setPb, htag, lookupTag, List.find?]

/-- The assignment pass keeps tagged fields in place and hands the prefix of
`ms` to the untagged fields in declaration order. -/
theorem assignSeq_spec :
    ∀ (fields : List Field) (ms : List Int) (out : List Field),
      assignSeq fields ms = some out →
      (∀ (i : Nat) (f : Field), fields[i]? = some f → lacksPb f = false → out[i]? = some f) ∧
      newPbs fields out =
        (ms.take ((fields.filter lacksPb).length)).map (fun m => some (toString m)) := by
  intro fields
  induction fields with
  | nil =>
    intro ms out h
    simp only [assignSeq, Option.some.injEq] at h
    subst h
    constructor
    · intro i f hf
      simp at hf
    · simp [newPbs]
  | cons f fs ih =>
    intro ms out h
    cases hf : lacksPb f with
    | true =>
      cases ms with
      | nil => simp [assignSeq, hf] at h
      | cons m ms' =>
        simp only [assignSeq, hf, if_true] at h
        cases has : assignSeq fs ms' with
        | none => rw [has] at h; simp at h
        | some out' =>
          rw [has] at h
          simp only [Option.map_some', Option.some.injEq] at h
          subst h
          obtain ⟨ih1, ih2⟩ := ih ms' out' has
          constructor
          · intro i g hg hgl
            cases i with
            | zero =>
              simp only [List.getElem?_cons_zero, Option.some.injEq] at hg
              subst hg
              rw [hgl] at hf
              cases hf
            | succ j =>
              simp only [List.getElem?_cons_succ] at hg ⊢
              exact ih1 j g hg hgl
          · simp only [newPbs] at ih2 ⊢
            simp [List.filter_cons, hf, pbOf_setPb, ih2, List.take_succ_cons]
    | false =>
      simp only [assignSeq, hf, Bool.false_eq_true, if_false] at h
      cases has : assignSeq fs ms with
      | none => rw [has] at h; simp at h
      | some out' =>
        rw [has] at h
        simp only [Option.map_some', Option.some.injEq] at h
        subst h
        obtain ⟨ih1, ih2⟩ := ih ms out' has
        constructor
        · intro i g hg hgl
          cases i with
          | zero => simpa using hg
          | succ j =>
            simp only [List.getElem?_cons_succ] at hg ⊢
            exact ih1 j g hg hgl
        · simp only [newPbs] at ih2 ⊢
          simp [List.filter_cons, hf, ih2]

/-- A prefix of missingSequences is exactly a set of smallest unused positive
integers in ascending order. -/
theorem missingSequences_smallest (used : List Int) (n m : Nat) :
    IsSmallestUnusedAssignment used ((missingSequences used n).take m) := by
  have hpw : (missingSequences used n).Pairwise (· < ·) := by
    refine List.Pairwise.filter _ ?_
    exact List.Pairwise.map _ (fun a b hab => by omega) (List.pairwise_lt_range n)
  refine ⟨List.Pairwise.sublist (List.take_sublist m _) hpw, ?_, ?_⟩
  · intro a ha
    have ham : a ∈ missingSequences used n := List.mem_of_mem_take ha
    have hparts : a ∈ rangeInts n ∧ a ∉ used := by
      simpa [missingSequences, List.mem_filter] using ham
    constructor
    · have harange := hparts.1
      unfold rangeInts at harange
      obtain ⟨j, hj, rfl⟩ := List.mem_map.mp harange
      omega
    · exact hparts.2
  · intro k hk hkused hkA a ha
    by_cases hkn : k ≤ (n : Int)
    · have hkmem : k ∈ missingSequences used n := by
        unfold missingSequences
        refine List.mem_filter.mpr ⟨?_, ?_⟩
        · unfold rangeInts
          refine List.mem_map.mpr ⟨(k - 1).toNat, List.mem_range.mpr ?_, ?_⟩ <;> omega
        · simpa using hkused
      have hsplitmem : k ∈ (missingSequences used n).take m ∨
          k ∈ (missingSequences used n).drop m := by
        rw [← List.mem_append, List.take_append_drop]
        exact hkmem
      have hkdrop := hsplitmem.resolve_left hkA
      have hpw2 : ((missingSequences used n).take m ++
          (missingSequences used n).drop m).Pairwise (· < ·) := by
        rw [List.take_append_drop]
        exact hpw
      exact (List.pairwise_append.mp hpw2).2.2 a ha k hkdrop
    · have ham : a ∈ missingSequences used n := List.mem_of_mem_take ha
      have hparts : a ∈ rangeInts n ∧ a ∉ used := by
        simpa [missingSequences, List.mem_filter] using ham
      have harange := hparts.1
      unfold rangeInts at harange
      obtain ⟨j, hj, rfl⟩ := List.mem_map.mp harange
      have := List.mem_range.mp hj
      omega

/-- Claim C5: under the formatter, fields that already carry a pb sequence
annotation are untouched, and the fields lacking one receive the smallest
positive integers not used by any existing annotation, ascending, in
declaration order. -/
theorem formatStruct_assigns_smallest (fields out : List Field) (used : List Int)
    (hc : collectSeq fields = .ok used)
    (hok : formatStruct fields = .ok out) :
    (∀ (i : Nat) (f : Field), fields[i]? = some f → lacksPb f = false → out[i]? = some f) ∧
    IsSmallestUnusedAssignment used
      ((missingSequences used fields.length).take ((fields.filter lacksPb).length)) ∧
    newPbs fields out =
      ((missingSequences used fields.length).take
        ((fields.filter lacksPb).length)).map (fun m => some (toString m)) := by
  cases has : assignSeq fields (missingSequences used fields.length) with
  | none =>
    simp only [formatStruct, hc, has] at hok
    simp at hok
  | some out' =>
    simp only [formatStruct, hc, has, FmtResult.ok.injEq] at hok
    subst hok
    obtain ⟨h1, h2⟩ := assignSeq_spec fields _ out' has
    exact ⟨h1, missingSequences_smallest used fields.length _, h2⟩

/-- Witness for C5: the spec's example [a, b(pb=3), c, d] formats to a=1,
b=3 unchanged, c=2, d=4. -/
theorem formatStruct_assigns_smallest_witness :
    collectSeq exFields = .ok [3] ∧
    formatStruct exFields = .ok exOut ∧
    newPbs exFields exOut = [some "1", some "2", some "4"] ∧
    ((∀ (i : Nat) (f : Field), exFields[i]? = some f → lacksPb f = false → exOut[i]? = some f) ∧
      IsSmallestUnusedAssignment [3]
        ((missingSequences [3] exFields.length).take
          ((exFields.filter lacksPb).length)) ∧
      newPbs exFields exOut =
        ((missingSequences [3] exFields.length).take
          ((exFields.filter lacksPb).length)).map (fun m => some (toString m))) :=
  ⟨rfl, rfl, rfl, formatStruct_assigns_smallest exFields exOut [3] rfl rfl⟩

/-- Witness for C9 at the spec's example struct. -/
theorem formatStruct_access_in_bounds_witness :
    collectSeq exFields = .ok [3] ∧
    ((exFields.filter lacksPb).length ≤
        (missingSequences [3] exFields.length).length ∧
      formatStruct exFields ≠ FmtResult.panicked) :=
  ⟨rfl, formatStruct_access_in_bounds exFields [3] rfl⟩

/-- Counterexample to C3 as stated: on a struct with two fields both tagged
pb="2", validation records exactly one error, its kind is ParseError rather
than ValidateError, and it spans only the second field's tag (no error at
the first field's line). -/
theorem validatePackage_dup_seq_counterexample :
    (validatePackage dupSeqPkg).errors =
      [{ file := "/w/dup/dup.gunk", fromLine := 2, fromCol := 9, toLine := 2,
         toCol := 17, msg := "sequence number \"2\" seen twice",
         kind := ErrKind.ParseError }] ∧
    ((validatePackage dupSeqPkg).errors.filter
      (fun e => e.kind == ErrKind.ValidateError)) = [] ∧
    ((validatePackage dupSeqPkg).errors.filter (fun e => e.fromLine == 1)) = [] := by
  decide

/-- Claim C3 amended: for a struct whose two named fields carry valid tags
with the same non-empty numeric pb value and no json entries, validation
records exactly one new error: kind ParseError, message sequence seen twice,
spanning the second field's tag only; the syntax trees are left untouched
(no renumbering). -/
theorem validatePackage_dup_seq (pkg : GunkPackage) (path : String)
    (ast : FileAst) (st : StructData) (f1 f2 : Field) (t1 t2 : Tag)
    (v : String) (n : Int)
    (hasts : pkg.gunkAsts = [ast]) (hfiles : pkg.gunkFiles = [path])
    (hstructs : ast.structs = [st]) (hst : st.fields = [f1, f2])
    (hf1 : f1.tag = some t1) (hf2 : f2.tag = some t2)
    (hn1 : f1.namesCount = 1) (hn2 : f2.namesCount = 1)
    (hv1 : t1.vetOk = true) (hv2 : t2.vetOk = true)
    (hpb1 : lookupTag "pb" t1.entries = some v)
    (hpb2 : lookupTag "pb" t2.entries = some v)
    (hne : v ≠ "")
    (hj1 : lookupTag "json" t1.entries = none)
    (hj2 : lookupTag "json" t2.entries = none)
    (hnum : atoi? v = some n) :
    (validatePackage pkg).errors = pkg.errors ++
      [mkSpanError path t2.pos t2.endPos
        ("sequence number " ++ goQuote v ++ " seen twice") ErrKind.ParseError] ∧
    (validatePackage pkg).gunkAsts = pkg.gunkAsts := by
  refine ⟨?_, rfl⟩
  simp only [validatePackage, hasts, hfiles, hstructs, hst]
  simp [validateStruct, seqLoop, fieldStep, seqStep, hstructs, hst, hf1, hf2,
    hn1, hn2, hv1, hv2, hpb1, hpb2, hne, hj1, hj2, hnum, List.find?]

/-- Witness for the amended C3 at the concrete duplicate-pb package. -/
theorem validatePackage_dup_seq_witness :
    (validatePackage dupSeqPkg).errors = dupSeqPkg.errors ++
      [mkSpanError "/w/dup/dup.gunk" ⟨3, 10⟩ ⟨3, 18⟩
        ("sequence number " ++ goQuote "2" ++ " seen twice") ErrKind.ParseError] ∧
    (validatePackage dupSeqPkg).gunkAsts = dupSeqPkg.gunkAsts :=
  validatePackage_dup_seq dupSeqPkg "/w/dup/dup.gunk" dupSeqFile
    { fields := [
        { name := "A", pos := ⟨2, 2⟩, endPos := ⟨2, 18⟩,
          tag := some { entries := [("pb", "2")], pos := ⟨2, 10⟩, endPos := ⟨2, 18⟩ } },
        { name := "B", pos := ⟨3, 2⟩, endPos := ⟨3, 18⟩,
          tag := some { entries := [("pb", "2")], pos := ⟨3, 10⟩, endPos := ⟨3, 18⟩ } } ] }
    { name := "A", pos := ⟨2, 2⟩, endPos := ⟨2, 18⟩,
      tag := some { entries := [("pb", "2")], pos := ⟨2, 10⟩, endPos := ⟨2, 18⟩ } }
    { name := "B", pos := ⟨3, 2⟩, endPos := ⟨3, 18⟩,
      tag := some { entries := [("pb", "2")], pos := ⟨3, 10⟩, endPos := ⟨3, 18⟩ } }
    { entries := [("pb", "2")], pos := ⟨2, 10⟩, endPos := ⟨2, 18⟩ }
    { entries := [("pb", "2")], pos := ⟨3, 10⟩, endPos := ⟨3, 18⟩ }
    "2" 2 rfl rfl rfl rfl rfl rfl rfl rfl rfl rfl rfl rfl
    (by decide) rfl rfl rfl

/-- When no tracked package covers the directory, the find loop yields none
and leaves the list unchanged. -/
theorem promoteFirstAdd_none (pkgs : List GunkPackage) (d : String)
    (hno : ∀ p ∈ pkgs, p.dir ≠ d) : promoteFirstAdd pkgs d = (pkgs, none) := by
  induction pkgs with
  | nil => rfl
  | cons p ps ih =>
    have hp : p.dir ≠ d := hno p (by simp)
    simp only [promoteFirstAdd, if_neg hp]
    rw [ih (fun q hq => hno q (by simp [hq]))]

/-- addFileNewPkg never returns a package. -/
theorem addFileNewPkg_not_ok (env : Env) (l : Loader) (dir path : String) :
    ∀ ps pkg, (addFileNewPkg env l dir path).fst ≠ AddFileRes.ok ps pkg := by
  intro ps pkg
  unfold addFileNewPkg
  cases env.packagesLoad dir path (l.fakeFiles.getD []) with
  | error e => simp
  | ok lpkgs =>
    by_cases h : lpkgs.length ≠ 1 <;> simp [h]

/-- Claim C1 (code bug): with no tracked package covering the file's
directory, AddFile never succeeds — the synthesized Dirty node is dropped by
the shadowed binding and the nil covering package is dereferenced, so the
call ends in an error or a panic, never in an ok carrying the new package. -/
theorem addFile_new_package_never_ok (env : Env) (l : Loader)
    (pkgs : List GunkPackage) (path src : String)
    (hno : ∀ p ∈ pkgs, p.dir ≠ dirOf path) :
    ∀ ps pkg, (Loader.AddFile env l pkgs path src).fst ≠ AddFileRes.ok ps pkg := by
  intro ps pkg
  dsimp only [Loader.AddFile]
  rw [promoteFirstAdd_none pkgs (dirOf path) hno]
  cases env.readDir (dirOf path) with
  | notExist =>
    cases hsf : Loader.setFake _ _ _ with
    | none => simp [hsf]
    | some l1 => simp [hsf]; exact addFileNewPkg_not_ok env l1 _ _ ps pkg
  | failure msg => simp
  | ok names =>
    by_cases h : names.any (fun nm => strEndsWith nm ".go") = true
    · simp [h]; exact addFileNewPkg_not_ok env _ _ _ ps pkg
    · simp [h]
      cases hsf : Loader.setFake _ _ _ with
      | none => simp [hsf]
      | some l1 => simp [hsf]; exact addFileNewPkg_not_ok env l1 _ _ ps pkg

/-- Witness for C1's failing input: AddFile of a file in an uncovered
directory ends in the nil-pointer panic, and in particular never in ok. -/
theorem addFile_new_package_never_ok_witness :
    (Loader.AddFile envC1 loaderC1 [] "/w/a.gunk" "package a").fst =
      AddFileRes.panicked "runtime error: invalid memory address or nil pointer dereference" ∧
    (∀ ps pkg, (Loader.AddFile envC1 loaderC1 [] "/w/a.gunk" "package a").fst ≠
      AddFileRes.ok ps pkg) :=
  ⟨by decide, addFile_new_package_never_ok envC1 loaderC1 [] "/w/a.gunk" "package a"
    (by intro p hp; cases hp)⟩

/-- Claim C7: a cached package without host errors is returned as-is, with
the loader untouched and independently of the resolver, and an immediate
second Load returns the same node; a cached package with host errors makes
Load fail. -/
theorem load_cached_spec (env env2 : Env) (l : Loader) (path : String)
    (pkg : GunkPackage) (hc : lookupA l.cache path = some pkg) :
    (pkg.hostErrors = [] →
      Loader.Load env l path = (.ok [pkg], l) ∧
      Loader.Load env l path = Loader.Load env2 l path ∧
      (Loader.Load env (Loader.Load env l path).snd path).fst = .ok [pkg]) ∧
    (pkg.hostErrors ≠ [] →
      Loader.Load env l path = (.error ("error loading package " ++ goQuote path), l)) := by
  constructor
  · intro he
    have h1 : Loader.Load env l path = (.ok [pkg], l) := by
      simp [Loader.Load, hc, he]
    refine ⟨h1, ?_, ?_⟩
    · rw [h1]; simp [Loader.Load, hc, he]
    · rw [h1]; simp [h1]
  · intro he
    simp [Loader.Load, hc, if_neg he]

/-- Witness for C7: the cached clean package is returned unchanged twice,
and the cached broken package yields the load error. -/
theorem load_cached_spec_witness :
    (cachedPkgC7.hostErrors = [] →
      Loader.Load envC1 loaderC7 "m/x" = (.ok [cachedPkgC7], loaderC7) ∧
      Loader.Load envC1 loaderC7 "m/x" = Loader.Load envC1 loaderC7 "m/x" ∧
      (Loader.Load envC1 (Loader.Load envC1 loaderC7 "m/x").snd "m/x").fst =
        .ok [cachedPkgC7]) ∧
    (cachedPkgC7.hostErrors ≠ [] →
      Loader.Load envC1 loaderC7 "m/x" =
        (.error ("error loading package " ++ goQuote "m/x"), loaderC7)) :=
  load_cached_spec envC1 envC1 loaderC7 "m/x" cachedPkgC7 (by decide)

/-- Counterexample to C2 as stated: "example.com/foo" contains a dot, yet
Import does not delegate to host loading — the host oracle would answer the
HOST surface while Import returns the package graph's cached surface — and
conversely the dotless "fmt" is the path delegated to host loading. -/
theorem import_dot_counterexample :
    containsDot "example.com/foo" = true ∧
    envC2.hostLoadTypes "example.com/foo" = .ok [{ path := "HOST", name := "host" }] ∧
    (Loader.Import envC2 loaderC2 "example.com/foo").fst =
      ImportRes.ok (some { path := "example.com/foo", name := "foo" }) ∧
    ImportRes.ok (some ({ path := "example.com/foo", name := "foo" } : TypeSurface)) ≠
      ImportRes.ok (some ({ path := "HOST", name := "host" } : TypeSurface)) ∧
    containsDot "fmt" = false ∧
    (Loader.Import envC2 loaderC2 "fmt").fst =
      ImportRes.ok (some { path := "HOST", name := "host" }) := by
  decide

/-- Claim C2 amended: Import sends paths without a dot to plain host type
loading, and paths with a dot through the package graph's Load; a loaded
package free of host errors is reset and reparsed/rechecked when it is
Dirty or lacks a type table — Import returning the cycle's type surface
when the cycle completes, and propagating the cycle's index-out-of-range
panic when it does not — and otherwise its cached type surface is returned
directly. -/
theorem import_amended_spec (env : Env) (l : Loader) (path : String) :
    ((∀ t, containsDot path = false → env.hostLoadTypes path = .ok [t] →
        Loader.Import env l path = (.ok (some t), l)) ∧
     (∀ e, containsDot path = false → env.hostLoadTypes path = .error e →
        Loader.Import env l path = (.failure e, l))) ∧
    (∀ pkg l1, containsDot path = true →
      Loader.Load env l path = (.ok [pkg], l1) →
      pkg.hostErrors = [] →
      (((pkg.state = .Dirty ∨ pkg.types = none) →
        (∀ r, Loader.parseGunkPackage env l1 (resetPackage pkg) = some r →
          Loader.Import env l path = (ImportRes.ok r.fst.types, r.snd)) ∧
        (Loader.parseGunkPackage env l1 (resetPackage pkg) = none →
          Loader.Import env l path =
            (ImportRes.panicked "runtime error: index out of range", l1))) ∧
      (pkg.state ≠ .Dirty → pkg.types ≠ none →
        Loader.Import env l path = (ImportRes.ok pkg.types, l1)))) := by
  refine ⟨⟨?_, ?_⟩, ?_⟩
  · intro t hdot hh
    simp [Loader.Import, hdot, hh]
  · intro e hdot hh
    simp [Loader.Import, hdot, hh]
  · intro pkg l1 hdot hload herr
    refine ⟨fun hforce => ⟨?_, ?_⟩, ?_⟩
    · intro r hp
      simp [Loader.Import, hdot, hload, herr, hforce, hp]
    · intro hp
      simp [Loader.Import, hdot, hload, herr, hforce, hp]
    · intro hs ht
      have hcond : ¬(pkg.state = .Dirty ∨ pkg.types = none) := by
        intro hor
        cases hor with
        | inl h => exact hs h
        | inr h => exact ht h
      simp [Loader.Import, hdot, hload, herr, hcond]

/-- Witness for the amended C2: the dotless path "fmt" goes to the host;
the dotted cached Open package returns its surface directly; the dotted
Dirty package goes through the forced cycle and returns that cycle's type
surface; and the Dirty package whose files mix two package names with a
parse failure panics inside the forced cycle. -/
theorem import_amended_spec_witness :
    Loader.Import envC2 loaderC2 "fmt" =
      (.ok (some { path := "HOST", name := "host" }), loaderC2) ∧
    Loader.Import envC2 loaderC2 "example.com/foo" =
      (ImportRes.ok pkgC2.types, loaderC2) ∧
    Loader.Import envC2 loaderC2b "example.com/bar" =
      (ImportRes.ok pkgC2bAfter.types, loaderC2bAfter) ∧
    Loader.Import envC2p loaderC2p "example.com/pnc" =
      (ImportRes.panicked "runtime error: index out of range", loaderC2p) :=
  ⟨(import_amended_spec envC2 loaderC2 "fmt").1.1
      { path := "HOST", name := "host" } (by decide) (by decide),
   ((import_amended_spec envC2 loaderC2 "example.com/foo").2 pkgC2 loaderC2
      (by decide) (by decide) (by decide)).2 (by decide) (by decide),
   ((((import_amended_spec envC2 loaderC2b "example.com/bar").2 pkgC2b loaderC2b
      (by decide) (by decide) (by decide)).1 (Or.inl rfl)).1
      (pkgC2bAfter, loaderC2bAfter) (by decide)),
   ((((import_amended_spec envC2p loaderC2p "example.com/pnc").2 pkgC2p loaderC2p
      (by decide) (by decide) (by decide)).1 (Or.inl rfl)).2 (by decide))⟩

/-- resetPackage keeps the lifecycle state. -/
theorem resetPackage_state (p : GunkPackage) : (resetPackage p).state = p.state := rfl

/-- resetPackage keeps the file list. -/
theorem resetPackage_gunkFiles (p : GunkPackage) :
    (resetPackage p).gunkFiles = p.gunkFiles := rfl

/-- validatePackage keeps the lifecycle state. -/
theorem validatePackage_state (p : GunkPackage) : (validatePackage p).state = p.state := rfl

/-- validatePackage keeps the file list. -/
theorem validatePackage_gunkFiles (p : GunkPackage) :
    (validatePackage p).gunkFiles = p.gunkFiles := rfl

/-- ParsePackage rewrites only derived fields: on every completing run the
lifecycle state, the file list and the package path are untouched. -/
theorem parsePackage_frame (env : Env) (l : Loader) (pkg : GunkPackage) (b : Bool) :
    ∀ r, Loader.ParsePackage env l pkg b = some r →
      r.fst.state = pkg.state ∧ r.fst.gunkFiles = pkg.gunkFiles ∧
      r.fst.pkgPath = pkg.pkgPath := by
  intro r h
  unfold Loader.ParsePackage at h
  dsimp only at h
  repeat' split at h
  all_goals
    first
    | exact Option.noConfusion h
    | (simp only [Option.some.injEq] at h
       rw [← h]
       exact ⟨rfl, rfl, rfl⟩)

/-- The input package's name is irrelevant to ParsePackage: it is cleared
before parsing. -/
theorem parsePackage_name_irrelevant (env : Env) (l : Loader) (r : GunkPackage)
    (x : String) (b : Bool) :
    Loader.ParsePackage env l { r with name := x } b = Loader.ParsePackage env l r b := by
  rfl

/-- Unfolding lookupA over a cons cell. -/
theorem lookupA_cons {A : Type} (g : String) (v : A) (rest : List (String × A)) (f : String) :
    lookupA ((g, v) :: rest) f = if g == f then some v else lookupA rest f := by
  cases h : (g == f) <;> simp [lookupA, List.find?, h]

/-- insertAppend under a different key leaves lookups unchanged. -/
theorem lookupA_insertAppend_ne (m : List (String × List Diagnostic))
    (f k : String) (d : Diagnostic) (h : k ≠ f) :
    lookupA (insertAppend m k d) f = lookupA m f := by
  induction m with
  | nil =>
    have hb : (k == f) = false := by simp [h]
    simp [insertAppend, lookupA_cons, hb, lookupA]
  | cons e rest ih =>
    obtain ⟨g, ds⟩ := e
    cases hg : (g == k) with
    | true =>
      have hgk : g = k := by simpa using hg
      subst hgk
      have hb : (g == f) = false := by simp [h]
      simp [insertAppend, hg, lookupA_cons, hb]
    | false =>
      simp [insertAppend, hg, lookupA_cons, ih]

/-- insertAppend at the key appends to the existing entry (creating it when
absent). -/
theorem lookupA_insertAppend_eq (m : List (String × List Diagnostic))
    (f : String) (d : Diagnostic) :
    lookupA (insertAppend m f d) f = some ((lookupA m f).getD [] ++ [d]) := by
  induction m with
  | nil => simp [insertAppend, lookupA_cons, lookupA]
  | cons e rest ih =>
    obtain ⟨g, ds⟩ := e
    cases hg : (g == f) with
    | true => simp [insertAppend, hg, lookupA_cons]
    | false => simp [insertAppend, hg, lookupA_cons, ih]

/-- Folding diagnostics into the map preserves present keys. -/
theorem fold_keeps_key (errs : List Error) :
    ∀ (m : List (String × List Diagnostic)) (f : String) (ds : List Diagnostic),
      lookupA m f = some ds →
      ∃ ds2, lookupA
        (errs.foldl (fun m e => insertAppend m e.file (toDiagnostic e)) m) f = some ds2 := by
  induction errs with
  | nil => intro m f ds h; exact ⟨ds, h⟩
  | cons e es ih =>
    intro m f ds h
    simp only [List.foldl_cons]
    by_cases hef : e.file = f
    · subst hef
      exact ih _ e.file _ (lookupA_insertAppend_eq m e.file (toDiagnostic e))
    · exact ih _ f ds (by rw [lookupA_insertAppend_ne m f e.file _ hef]; exact h)

/-- Folding diagnostics whose files all differ from f leaves f's entry. -/
theorem fold_keeps_value (errs : List Error) :
    ∀ (m : List (String × List Diagnostic)) (f : String) (ds : List Diagnostic),
      lookupA m f = some ds → (∀ e ∈ errs, e.file ≠ f) →
      lookupA
        (errs.foldl (fun m e => insertAppend m e.file (toDiagnostic e)) m) f = some ds := by
  induction errs with
  | nil => intro m f ds h _; exact h
  | cons e es ih =>
    intro m f ds h hne
    simp only [List.foldl_cons]
    refine ih _ f ds ?_ (fun x hx => hne x (by simp [hx]))
    rw [lookupA_insertAppend_ne m f e.file _ (hne e (by simp))]
    exact h

/-- Every listed file starts with an empty diagnostic list. -/
theorem lookupA_init (files : List String) (f : String) (hf : f ∈ files) :
    lookupA (files.map (fun g => (g, ([] : List Diagnostic)))) f = some [] := by
  induction files with
  | nil => cases hf
  | cons g gs ih =>
    cases hg : (g == f) with
    | true => simp [lookupA_cons, hg]
    | false =>
      have hne : g ≠ f := by simpa using hg
      have htail : f ∈ gs := by
        rcases List.mem_cons.mp hf with rfl | htail
        · exact absurd rfl hne.symm
        · exact htail
      simp [lookupA_cons, hg, ih htail]

/-- The whole result of Errors on a Dirty package is recomputed from reset
state: the stale derived fields (names, trees, proto name, errors, types,
host errors, name) do not influence it, panic included. -/
theorem errors_junk_independent (env : Env) (l : Loader) (pkg : GunkPackage)
    (junkNames : List String) (junkAsts : List FileAst) (junkProto : String)
    (junkErrs : List Error) (junkTypes : Option TypeSurface)
    (junkHost : List HostError) (junkName : String)
    (hd : pkg.state = PkgState.Dirty) :
    Loader.Errors env l
      { pkg with
        gunkNames := junkNames, gunkAsts := junkAsts, protoName := junkProto,
        errors := junkErrs, types := junkTypes, hostErrors := junkHost,
        name := junkName } = Loader.Errors env l pkg := by
  have hB : ¬(pkg.state ≠ PkgState.Dirty) := by simp [hd]
  unfold Loader.Errors
  rw [if_neg hB, if_neg hB]
  have hkey : resetPackage
      { pkg with
        gunkNames := junkNames, gunkAsts := junkAsts, protoName := junkProto,
        errors := junkErrs, types := junkTypes, hostErrors := junkHost,
        name := junkName } = { resetPackage pkg with name := junkName } := rfl
  rw [hkey]
  unfold Loader.parseGunkPackage
  rw [parsePackage_name_irrelevant]

/-- Every completing run of Errors matches the spec: a non-Dirty package
yields no diagnostics, and on a Dirty package the run (when it does not
panic) is independent of the stale derived fields and returns a map keying
every file of the file list, with an explicit empty list for every file
contributing no error. -/
theorem errors_spec (env : Env) (l : Loader) (pkg : GunkPackage) :
    (pkg.state ≠ PkgState.Dirty → Loader.Errors env l pkg = .done none pkg l) ∧
    (∀ dm pkg2 l2, pkg.state = PkgState.Dirty →
      Loader.Errors env l pkg = .done dm pkg2 l2 →
      ∃ dmap, dm = some dmap ∧
        (∀ f ∈ pkg.gunkFiles, ∃ ds, lookupA dmap f = some ds) ∧
        (∀ f ∈ pkg.gunkFiles, (∀ e ∈ pkg2.errors, e.file ≠ f) →
          lookupA dmap f = some []) ∧
        (∀ junkNames junkAsts junkProto junkErrs junkTypes junkHost junkName,
          Loader.Errors env l
            { pkg with
              gunkNames := junkNames, gunkAsts := junkAsts, protoName := junkProto,
              errors := junkErrs, types := junkTypes, hostErrors := junkHost,
              name := junkName } = .done dm pkg2 l2)) := by
  constructor
  · intro h
    unfold Loader.Errors
    rw [if_pos h]
  · intro dm pkg2 l2 hd h
    have horig := h
    have hB : ¬(pkg.state ≠ PkgState.Dirty) := by simp [hd]
    unfold Loader.Errors at h
    rw [if_neg hB] at h
    cases hp : Loader.parseGunkPackage env l (resetPackage pkg) with
    | none =>
      rw [hp] at h
      simp at h
    | some r =>
      rw [hp] at h
      simp only [ErrorsRes.done.injEq] at h
      obtain ⟨h1, h2, h3⟩ := h
      subst h1
      subst h2
      subst h3
      have hframe := parsePackage_frame env l (resetPackage pkg) l.types r
        (show Loader.ParsePackage env l (resetPackage pkg) l.types = some r from hp)
      have hfiles : (validatePackage r.fst).gunkFiles = pkg.gunkFiles := by
        rw [validatePackage_gunkFiles, hframe.2.1, resetPackage_gunkFiles]
      refine ⟨_, rfl, ?_, ?_, ?_⟩
      · intro f hf
        refine fold_keeps_key _ _ f [] ?_
        rw [hfiles]
        exact lookupA_init pkg.gunkFiles f hf
      · intro f hf hne
        refine fold_keeps_value _ _ f [] ?_ hne
        rw [hfiles]
        exact lookupA_init pkg.gunkFiles f hf
      · intro junkNames junkAsts junkProto junkErrs junkTypes junkHost junkName
        exact (errors_junk_independent env l pkg junkNames junkAsts junkProto
          junkErrs junkTypes junkHost junkName hd).trans horig

/-- The completing-run facts of errors_spec at the concrete Dirty package. -/
theorem errors_spec_witness :
    ∃ dmap, dmC4 = some dmap ∧
      (∀ f ∈ pkgC4.gunkFiles, ∃ ds, lookupA dmap f = some ds) ∧
      (∀ f ∈ pkgC4.gunkFiles, (∀ e ∈ pkgC4done.errors, e.file ≠ f) →
        lookupA dmap f = some []) ∧
      (∀ junkNames junkAsts junkProto junkErrs junkTypes junkHost junkName,
        Loader.Errors envC1 loaderC4
          { pkgC4 with
            gunkNames := junkNames, gunkAsts := junkAsts, protoName := junkProto,
            errors := junkErrs, types := junkTypes, hostErrors := junkHost,
            name := junkName } = .done dmC4 pkgC4done loaderC4done) :=
  (errors_spec envC1 loaderC4 pkgC4).2 dmC4 pkgC4done loaderC4done rfl (by decide)

/-- Claim C4 (code bug): at a Dirty package whose files parse under two
different package names while a third file fails to parse, Errors returns
no per-file diagnostics map at all — the bad-package-name block indexes the
truncated syntax-tree list out of range and panics. -/
theorem errors_badname_panic :
    pkgC4p.state = PkgState.Dirty ∧
    Loader.Errors envC4p loaderC4p pkgC4p = ErrorsRes.panicked :=
  ⟨rfl, by decide⟩

/-- Helper: a completing Errors run on a Dirty package always carries a
diagnostics map. -/
theorem errors_dirty_some (env : Env) (l : Loader) (p : GunkPackage)
    (h : p.state = PkgState.Dirty) :
    ∀ dm pkg2 l2, Loader.Errors env l p = .done dm pkg2 l2 → dm ≠ none := by
  intro dm pkg2 l2 he
  have hB : ¬(p.state ≠ PkgState.Dirty) := by simp [h]
  unfold Loader.Errors at he
  rw [if_neg hB] at he
  cases hp : Loader.parseGunkPackage env l (resetPackage p) with
  | none =>
    rw [hp] at he
    simp at he
  | some r =>
    rw [hp] at he
    simp only [ErrorsRes.done.injEq] at he
    rw [← he.1]
    simp

/-- Claim C10: Errors never writes the package's lifecycle state — every
completing run returns the package with its state intact, so a Dirty
package is still Dirty afterwards and an immediate second Errors call that
completes recomputes (it carries a diagnostics map, not the non-Dirty
none); the panicking run returns nothing and writes no state either. -/
theorem errors_preserves_state (env : Env) (l : Loader) (pkg : GunkPackage) :
    (∀ dm pkg2 l2, Loader.Errors env l pkg = .done dm pkg2 l2 →
      pkg2.state = pkg.state) ∧
    (pkg.state = PkgState.Dirty →
      ∀ dm pkg2 l2, Loader.Errors env l pkg = .done dm pkg2 l2 →
        pkg2.state = PkgState.Dirty ∧
        (∀ dm2 pkg3 l3, Loader.Errors env l2 pkg2 = .done dm2 pkg3 l3 →
          dm2 ≠ none)) := by
  have hmain : ∀ dm pkg2 l2, Loader.Errors env l pkg = .done dm pkg2 l2 →
      pkg2.state = pkg.state := by
    intro dm pkg2 l2 h
    unfold Loader.Errors at h
    split at h
    · simp only [ErrorsRes.done.injEq] at h
      rw [← h.2.1]
    · cases hp : Loader.parseGunkPackage env l (resetPackage pkg) with
      | none =>
        rw [hp] at h
        simp at h
      | some r =>
        rw [hp] at h
        simp only [ErrorsRes.done.injEq] at h
        rw [← h.2.1, validatePackage_state]
        have hframe := parsePackage_frame env l (resetPackage pkg) l.types r
          (show Loader.ParsePackage env l (resetPackage pkg) l.types = some r from hp)
        rw [hframe.1, resetPackage_state]
  refine ⟨hmain, ?_⟩
  intro hd dm pkg2 l2 h
  have hstate2 : pkg2.state = PkgState.Dirty := (hmain dm pkg2 l2 h).trans hd
  exact ⟨hstate2, errors_dirty_some env l2 pkg2 hstate2⟩

/-- Witness for C10: the concrete Dirty package stays Dirty through the
completing run and the immediate second call carries a diagnostics map. -/
theorem errors_preserves_state_witness :
    Loader.Errors envC1 loaderC4 pkgC4 = ErrorsRes.done dmC4 pkgC4done loaderC4done ∧
    pkgC4done.state = PkgState.Dirty ∧
    Loader.Errors envC1 loaderC4done pkgC4done =
      ErrorsRes.done dmC4 pkgC4done loaderC4done ∧
    dmC4 ≠ none := by
  have h := (errors_preserves_state envC1 loaderC4 pkgC4).2 rfl dmC4 pkgC4done
    loaderC4done (by decide)
  exact ⟨by decide, h.1, by decide, h.2 dmC4 pkgC4done loaderC4done (by decide)⟩

/-- Claim C8: a definition request on an import path resolving to exactly
one package replies one location per file of that package, and a request on
an identifier of basic type replies the explicit invalid-target error — not
a location and not the silent no-target reply. -/
theorem goto_spec (env : Env) (l : Loader) :
    (∀ path pkg l1, Loader.Load env l path = (.ok [pkg], l1) →
      LSP.gotoImport env l path =
        (.locs (pkg.gunkFiles.map (fun v => { uriFile := v })), l1)) ∧
    (∀ (ti : List (Nat × TypeAndValue)) (expr : Nat) (tv : TypeAndValue) (b : String),
      lookupTI ti expr = some tv → tv.isType = true → tv.typ = .basic b →
      LSP.gotoType ti expr = .failureMsg invalidTypeMsg ∧
      LSP.gotoType ti expr ≠ .silent ∧
      ∀ ls, LSP.gotoType ti expr ≠ .locs ls) := by
  constructor
  · intro path pkg l1 hload
    simp [LSP.gotoImport, hload]
  · intro ti expr tv b hti htv hb
    have h : LSP.gotoType ti expr = .failureMsg invalidTypeMsg := by
      simp [LSP.gotoType, hti, htv, hb]
    refine ⟨h, ?_, ?_⟩
    · rw [h]; simp
    · intro ls; rw [h]; simp

/-- Witness for C8: the import lookup yields one location per file of the
target package, and a cursor on an int-typed identifier yields the
invalid-target error. -/
theorem goto_spec_witness :
    LSP.gotoImport envC2 loaderC8 "example.com/api" =
      (.locs [{ uriFile := "/m/api/a.gunk" }, { uriFile := "/m/api/b.gunk" }],
       loaderC8) ∧
    (LSP.gotoType [(7, { isType := true, typ := .basic "int" })] 7 =
        .failureMsg invalidTypeMsg ∧
      LSP.gotoType [(7, { isType := true, typ := .basic "int" })] 7 ≠ .silent ∧
      ∀ ls, LSP.gotoType [(7, { isType := true, typ := .basic "int" })] 7 ≠ .locs ls) :=
  ⟨(goto_spec envC2 loaderC8).1 "example.com/api" pkgC8 loaderC8 (by decide),
   (goto_spec envC2 loaderC8).2 [(7, { isType := true, typ := .basic "int" })] 7
     { isType := true, typ := .basic "int" } "int" (by decide) rfl rfl⟩

/-- A file absent from the list is reported missing. -/
theorem findFileAst_missing (files : List String) (asts : List FileAst)
    (file : String) (h : file ∉ files) : findFileAst files asts file = some none := by
  induction files generalizing asts with
  | nil => rfl
  | cons f fs ih =>
    have hne : (f == file) = false := by
      simp only [beq_eq_false_iff_ne, ne_eq]
      intro heq
      exact h (heq ▸ List.mem_cons_self f fs)
    have htail : file ∉ fs := fun hm => h (List.mem_cons_of_mem f hm)
    cases asts with
    | nil => simp [findFileAst, hne, ih [] htail]
    | cons a as2 => simp [findFileAst, hne, ih as2 htail]

/-- Claim C6 amended: the file-errors failure fires exactly on a
non-validation error recorded against the target file — validation errors
alone never produce it — and the not-found failure fires when the file is
absent from the resolved package's file list; a failure never carries
edits, but the gate conditions are not the only failures: the formatting
pass itself can still fail (see the counterexample). -/
theorem format_gate_spec (env : Env) (fenv : FmtEnv) (l : Loader) (file : String)
    (pkg : GunkPackage) (l1 : Loader)
    (hload : Loader.Load env l (dirOf file) = (.ok [pkg], l1))
    (hasts : pkg.gunkAsts ≠ []) :
    ((∃ e ∈ pkg.errors, e.file = file ∧ e.kind ≠ ErrKind.ValidateError) →
      LSP.Format env fenv l file = (.failure .fileErrors, l1)) ∧
    ((∀ e ∈ pkg.errors, e.file = file → e.kind = ErrKind.ValidateError) →
      (LSP.Format env fenv l file).fst ≠ FormatReply.failure FormatReason.fileErrors) ∧
    ((∀ e ∈ pkg.errors, e.file = file → e.kind = ErrKind.ValidateError) →
      file ∉ pkg.gunkFiles →
      LSP.Format env fenv l file = (.failure .notFound, l1)) := by
  have hempty : pkg.gunkAsts.isEmpty = false := by
    cases hga : pkg.gunkAsts with
    | nil => exact absurd hga hasts
    | cons a as2 => rfl
  have hanyT : (∃ e ∈ pkg.errors, e.file = file ∧ e.kind ≠ ErrKind.ValidateError) →
      (pkg.errors.any (fun e => e.file == file && e.kind != ErrKind.ValidateError)) = true := by
    intro hex
    obtain ⟨e, he, hf, hk⟩ := hex
    refine List.any_eq_true.mpr ⟨e, he, ?_⟩
    simp [hf, hk]
  have hanyF : (∀ e ∈ pkg.errors, e.file = file → e.kind = ErrKind.ValidateError) →
      (pkg.errors.any (fun e => e.file == file && e.kind != ErrKind.ValidateError)) = false := by
    intro hall
    refine List.any_eq_false.mpr ?_
    intro e he
    by_cases hf : e.file = file
    · simp [hf, hall e he hf]
    · simp [hf]
  refine ⟨?_, ?_, ?_⟩
  · intro hex
    simp [LSP.Format, hload, hempty, hanyT hex]
  · intro hall
    simp only [LSP.Format, hload, hempty, Bool.false_eq_true, if_false, hanyF hall]
    split
    · simp
    · simp
    · split
      · simp
      · split <;> simp
  · intro hall hnotmem
    simp [LSP.Format, hload, hempty, hanyF hall,
      findFileAst_missing pkg.gunkFiles pkg.gunkAsts file hnotmem]

/-- Counterexample to C6 as stated: the target file carries no recorded
error at all and sits in the resolved package's file list, yet the Format
request fails (the formatter rejects the malformed pb tag) — so Format does
not fail exactly on the two claimed conditions. -/
theorem format_counterexample :
    pkgC6.errors = [] ∧
    ("/m/f/f.gunk" ∈ pkgC6.gunkFiles) ∧
    (LSP.Format envC1 fenvC6 loaderC6 "/m/f/f.gunk").fst =
      FormatReply.failure FormatReason.formatFailed ∧
    FormatReason.formatFailed ≠ FormatReason.fileErrors ∧
    FormatReason.formatFailed ≠ FormatReason.notFound := by
  refine ⟨rfl, by decide, by decide, by decide, by decide⟩

/-- Witness for the amended C6: a type error recorded on the file makes the
request fail with the file-errors failure. -/
theorem format_gate_spec_witness :
    LSP.Format envC1 fenvC6 loaderC6b "/m/f/f.gunk" =
      (.failure .fileErrors, loaderC6b) :=
  (format_gate_spec envC1 fenvC6 loaderC6b "/m/f/f.gunk" pkgC6b loaderC6b
    (by decide) (by decide)).1
    ⟨{ file := "/m/f/f.gunk", fromLine := 1, fromCol := 1, toLine := 1,
       toCol := 17, msg := "undefined: Broken", kind := ErrKind.TypeError },
     by decide, rfl, by decide⟩

end Gunkls
